import Mathlib

/-! Beacon committee listing and crosslink processing.

A shallow embedding of `beacon-chain/rpc/beacon/committees.go`
(`Server.ListBeaconCommittees`) together with the helpers it calls.

Go `uint64` values are natural numbers; every place where the handler can
leave the 64-bit range carries an explicit `% uint64Size`.
A Go division by zero panics, the natural-number quotient is 0: the embedding
agrees with the handler for positive `SlotsPerEpoch` and `TargetCommitteeSize`,
and a statement that a call succeeds is made for such configurations only.
gRPC statuses are represented by their code, the formatted message is dropped.
-/

set_option autoImplicit false

namespace Prysm

/-- Number of values of the Go type `uint64`. -/
def uint64Size : Nat := 2 ^ 64

/-! ## Configuration (`params.BeaconConfig()`) -/

/-- The fields of `params.BeaconConfig()` read by the handler.  The values are
not part of the sources at hand, so they are a parameter of every definition. -/
structure BeaconChainConfig where
  SlotsPerEpoch : Nat
  TargetCommitteeSize : Nat
  MaxCommitteesPerSlot : Nat
  deriving DecidableEq, Repr

/-! ## Helpers (`beacon-chain/core/helpers`, `shared/bytesutil`) -/

/-- Modelled from the spec: `helpers.SlotToEpoch`, whose body is not among the
sources.  Section 3 gives `Slot = Epoch * SlotsPerEpoch + offset`, so the epoch
of a slot is the integer quotient by `SlotsPerEpoch`. -/
def SlotToEpoch (cfg : BeaconChainConfig) (slot : Nat) : Nat :=
  slot / cfg.SlotsPerEpoch

/-- Modelled from the spec: `helpers.StartSlot`, whose body is not among the
sources.  Section 3 gives `Slot = Epoch * SlotsPerEpoch + offset`; the first
slot of an epoch has offset zero.  The handler stores the result in a `uint64`
variable, so the product is taken in 64-bit unsigned arithmetic. -/
def StartSlot (cfg : BeaconChainConfig) (epoch : Nat) : Nat :=
  (epoch * cfg.SlotsPerEpoch) % uint64Size

/-- Modelled from the spec: `bytesutil.ToBytes32`, whose body is not among the
sources.  A seed is a fixed 32-byte value (section 3): the first 32 bytes of
the slice, zero padded on the right. -/
def ToBytes32 (x : List Nat) : List Nat :=
  x.take 32 ++ List.replicate (32 - x.length) 0

/-- Modelled from the spec: the ShuffleEngine of section 4.1, whose body is not
among the sources.  It is a parameter: any function of the index sequence and
the seed that returns a permutation of its input. -/
structure ShuffleEngine where
  Shuffle : List Nat → List Nat → List Nat
  perm : ∀ (indices seed : List Nat), (Shuffle indices seed).Perm indices

/-- Modelled from the spec: the committee-count policy of section 4.4
(`CommitteesPerSlot` given `activeCount`): the quotient
`activeCount / slotsPerEpoch / targetCommitteeSize`, clamped to at most
`maxCommitteesPerSlot` and to at least 1. -/
def CommitteesPerSlot (cfg : BeaconChainConfig) (activeCount : Nat) : Nat :=
  let count := activeCount / cfg.SlotsPerEpoch / cfg.TargetCommitteeSize
  let count := if count > cfg.MaxCommitteesPerSlot then cfg.MaxCommitteesPerSlot else count
  if count = 0 then 1 else count

/-- Modelled from the spec: the CommitteeAssigner of section 4.4, steps 1 to 4.
`Committee(activeIndices, seed, slot, committeeIndex, slotsPerEpoch,
committeesPerSlot)` fails with `InvalidInput` on an empty active set and
otherwise returns the slice `shuffled[start:end]`. -/
def Committee (sh : ShuffleEngine) (activeIndices seed : List Nat)
    (slot committeeIndex slotsPerEpoch committeesPerSlot : Nat) : Except String (List Nat) :=
  if activeIndices.isEmpty then .error "InvalidInput"
  else
    let shuffled := sh.Shuffle activeIndices seed
    let committeesPerEpoch := committeesPerSlot * slotsPerEpoch
    let globalCommitteeIndex := (slot % slotsPerEpoch) * committeesPerSlot + committeeIndex
    let start := (shuffled.length * globalCommitteeIndex) / committeesPerEpoch
    let stop := (shuffled.length * (globalCommitteeIndex + 1)) / committeesPerEpoch
    .ok ((shuffled.drop start).take (stop - start))

/-- Modelled from the spec: `helpers.BeaconCommittee`, whose body is not among
the sources.  The handler passes the active indices, the seed, the slot and the
committee index; the configuration is ambient and the number of committees per
slot follows the committee-count policy of section 4.4. -/
def BeaconCommittee (cfg : BeaconChainConfig) (sh : ShuffleEngine)
    (activeIndices seed : List Nat) (slot committeeIndex : Nat) : Except String (List Nat) :=
  Committee sh activeIndices seed slot committeeIndex cfg.SlotsPerEpoch
    (CommitteesPerSlot cfg activeIndices.length)

/-! ## Collaborators of the server -/

/-- The methods of `bs.HeadFetcher` used by the handler. -/
structure HeadFetcher where
  HeadSlot : Nat
  HeadValidatorsIndices : Nat → Except String (List Nat)
  HeadSeed : Nat → Except String (List Nat)

/-- The archive record; the handler reads its `AttesterSeed` bytes only. -/
structure ArchivedCommitteeInfo where
  AttesterSeed : List Nat
  deriving DecidableEq, Repr

/-- The method of `bs.BeaconDB` used by the handler: an error, a nil record or
a record. -/
structure BeaconDB where
  ArchivedCommitteeInfo : Nat → Except String (Option ArchivedCommitteeInfo)

/-- The receiver `bs *Server`. -/
structure Server where
  HeadFetcher : HeadFetcher
  BeaconDB : BeaconDB

/-! ## Request and response messages -/

/-- The `QueryFilter` oneof of `ethpb.ListCommitteesRequest`. -/
inductive QueryFilter where
  | Epoch (epoch : Nat)
  | Genesis (genesis : Bool)
  | unset
  deriving DecidableEq, Repr

/-- The message `ethpb.ListCommitteesRequest`. -/
structure ListCommitteesRequest where
  QueryFilter : QueryFilter
  deriving DecidableEq, Repr

/-- The gRPC status codes the handler returns. -/
inductive Code where
  | Internal
  | NotFound
  | InvalidArgument
  deriving DecidableEq, Repr

/-- The Go map `map[uint64]*BeaconCommittees_CommitteesList`, as an association
list from slot to the committees of the slot.  `CommitteesList` and
`CommitteeItem` wrap one field each and are represented by that field. -/
abbrev CommitteesMap := List (Nat × List (List Nat))

/-- Map assignment `m[slot] = items`: an earlier entry of the key is replaced. -/
def CommitteesMap.assign (m : CommitteesMap) (slot : Nat) (items : List (List Nat)) :
    CommitteesMap :=
  (slot, items) :: m.filter (fun p => p.1 != slot)

/-- The message `ethpb.BeaconCommittees`. -/
structure BeaconCommittees where
  Epoch : Nat
  Committees : CommitteesMap
  ActiveValidatorCount : Nat
  deriving DecidableEq, Repr

/-! ## The handler -/

/-- Lines 23 to 36: the slot the request resolves to.  `startSlot` keeps its
zero value when the genesis filter is set to true. -/
def resolveStartSlot (cfg : BeaconChainConfig) (bs : Server) (req : ListCommitteesRequest) : Nat :=
  let headSlot := bs.HeadFetcher.HeadSlot
  match req.QueryFilter with
  | .Epoch epoch => StartSlot cfg epoch
  | .Genesis genesis => if genesis then 0 else headSlot
  | .unset => headSlot

/-- Lines 38 to 100: the routing of the request.  Returns the active indices and
the attester seed the committees are built from, or the status code. -/
def fetchIndicesAndSeed (cfg : BeaconChainConfig) (bs : Server) (startSlot : Nat) :
    Except Code (List Nat × List Nat) :=
  let headSlot := bs.HeadFetcher.HeadSlot
  let headEpoch := SlotToEpoch cfg headSlot
  if (SlotToEpoch cfg startSlot + 1) % uint64Size < headEpoch then
    match bs.HeadFetcher.HeadValidatorsIndices (SlotToEpoch cfg startSlot) with
    | .error _ => .error Code.Internal
    | .ok activeIndices =>
      match bs.BeaconDB.ArchivedCommitteeInfo (SlotToEpoch cfg startSlot) with
      | .error _ => .error Code.Internal
      | .ok none => .error Code.NotFound
      | .ok (some archivedCommitteeInfo) =>
        .ok (activeIndices, ToBytes32 archivedCommitteeInfo.AttesterSeed)
  else if (SlotToEpoch cfg startSlot + 1) % uint64Size = headEpoch
      ∨ SlotToEpoch cfg startSlot = headEpoch then
    let requestedEpoch := SlotToEpoch cfg startSlot
    match bs.HeadFetcher.HeadValidatorsIndices requestedEpoch with
    | .error _ => .error Code.Internal
    | .ok activeIndices =>
      match bs.HeadFetcher.HeadSeed requestedEpoch with
      | .error _ => .error Code.Internal
      | .ok attesterSeed => .ok (activeIndices, attesterSeed)
  else
    .error Code.InvalidArgument

/-- Lines 104 to 110: the number of committees the handler computes for a slot.
The two divisions of line 104 panic on a zero `SlotsPerEpoch` or
`TargetCommitteeSize`; the quotient below agrees with them for positive
constants. -/
def countAtSlot (cfg : BeaconChainConfig) (activeIndices : List Nat) : Nat :=
  let count := activeIndices.length / cfg.SlotsPerEpoch / cfg.TargetCommitteeSize
  let count := if count > cfg.MaxCommitteesPerSlot then cfg.MaxCommitteesPerSlot else count
  if count = 0 then 1 else count

/-- Lines 111 to 125: the inner loop over `committeeIndex` from 0 up to `n`,
in increasing order; the first failing committee computation ends the call
with `Internal`. -/
def committeeItems (compute : Nat → Except String (List Nat)) :
    Nat → Except Code (List (List Nat))
  | 0 => .ok []
  | n + 1 =>
    match committeeItems compute n with
    | .error c => .error c
    | .ok items =>
      match compute n with
      | .error _ => .error Code.Internal
      | .ok committee => .ok (items ++ [committee])

/-- Lines 103 to 129: the outer loop, `trips` more iterations starting at
`slot`, with `committeesList` the map built so far. -/
def slotLoop (cfg : BeaconChainConfig) (sh : ShuffleEngine) (activeIndices attesterSeed : List Nat) :
    Nat → Nat → CommitteesMap → Except Code CommitteesMap
  | 0, _, committeesList => .ok committeesList
  | trips + 1, slot, committeesList =>
    match committeeItems (BeaconCommittee cfg sh activeIndices attesterSeed slot)
        (countAtSlot cfg activeIndices) with
    | .error c => .error c
    | .ok items => slotLoop cfg sh activeIndices attesterSeed trips (slot + 1)
        (committeesList.assign slot items)

/-- Lines 102 to 129: `for slot := startSlot; slot < startSlot+SlotsPerEpoch;
slot++`.  The bound is a `uint64` sum; the loop runs `bound - startSlot`
times, none when the bound is not above `startSlot`. -/
def buildCommitteesList (cfg : BeaconChainConfig) (sh : ShuffleEngine)
    (activeIndices attesterSeed : List Nat) (startSlot : Nat) : Except Code CommitteesMap :=
  let bound := (startSlot + cfg.SlotsPerEpoch) % uint64Size
  slotLoop cfg sh activeIndices attesterSeed (bound - startSlot) startSlot []

/-- The handler `(bs *Server) ListBeaconCommittees(ctx, req)`. -/
def ListBeaconCommittees (cfg : BeaconChainConfig) (sh : ShuffleEngine) (bs : Server)
    (req : ListCommitteesRequest) : Except Code BeaconCommittees :=
  let startSlot := resolveStartSlot cfg bs req
  match fetchIndicesAndSeed cfg bs startSlot with
  | .error c => .error c
  | .ok (activeIndices, attesterSeed) =>
    match buildCommitteesList cfg sh activeIndices attesterSeed startSlot with
    | .error c => .error c
    | .ok committeesList =>
      .ok { Epoch := SlotToEpoch cfg startSlot
            Committees := committeesList
            ActiveValidatorCount := activeIndices.length }

/-! ## Concrete collaborators used in the examples -/

/-- A shuffle engine that returns the indices reversed. -/
def reverseShuffle : ShuffleEngine where
  Shuffle := fun indices _ => indices.reverse
  perm := fun indices _ => List.reverse_perm indices

/-- A small configuration: 4 slots per epoch, target committee size 2, at most
2 committees per slot. -/
def smallConfig : BeaconChainConfig :=
  { SlotsPerEpoch := 4, TargetCommitteeSize := 2, MaxCommitteesPerSlot := 2 }

/-- A head fetcher at the given head slot with 16 active validators and a zero
seed for every epoch. -/
def liveHead (headSlot : Nat) : HeadFetcher :=
  { HeadSlot := headSlot
    HeadValidatorsIndices := fun _ => .ok (List.range 16)
    HeadSeed := fun _ => .ok (List.replicate 32 0) }

/-- A database without any archived record (archiving disabled). -/
def emptyDB : BeaconDB :=
  { ArchivedCommitteeInfo := fun _ => .ok none }

/-- A database holding the same record for every epoch. -/
def fullDB : BeaconDB :=
  { ArchivedCommitteeInfo := fun _ => .ok (some { AttesterSeed := [1, 2, 3] }) }

deriving instance DecidableEq for Except

/-- A head fetcher whose index lookup fails. -/
def brokenHead (headSlot : Nat) : HeadFetcher :=
  { HeadSlot := headSlot
    HeadValidatorsIndices := fun _ => .error "no state"
    HeadSeed := fun _ => .ok (List.replicate 32 0) }

/-- The committees the handler stores for a slot when every committee
computation of the slot succeeds (the empty list otherwise).  It names the
entries of the map in the loop lemmas. -/
def slotItems (cfg : BeaconChainConfig) (sh : ShuffleEngine) (activeIndices attesterSeed : List Nat)
    (slot : Nat) : List (List Nat) :=
  match committeeItems (BeaconCommittee cfg sh activeIndices attesterSeed slot)
      (countAtSlot cfg activeIndices) with
  | .ok items => items
  | .error _ => []

/-- A configuration with a zero bound on the committees per slot. -/
def zeroMaxConfig : BeaconChainConfig :=
  { SlotsPerEpoch := 4, TargetCommitteeSize := 2, MaxCommitteesPerSlot := 0 }

/-- The response to an unfiltered request at head slot 4 under `smallConfig`,
`reverseShuffle` and `liveHead 4`. -/
def responseAtSlot4 : BeaconCommittees :=
  { Epoch := 1
    Committees := [(7, [[3, 2], [1, 0]]), (6, [[7, 6], [5, 4]]), (5, [[11, 10], [9, 8]]),
      (4, [[15, 14], [13, 12]])]
    ActiveValidatorCount := 16 }

/-- A configuration with one slot per epoch. -/
def oneSlotConfig : BeaconChainConfig :=
  { SlotsPerEpoch := 1, TargetCommitteeSize := 2, MaxCommitteesPerSlot := 2 }

/-- A head fetcher that differs from `liveHead` at epoch 0 only, where it
reports 8 active validators. -/
def smallerHead (headSlot : Nat) : HeadFetcher :=
  { HeadSlot := headSlot
    HeadValidatorsIndices := fun epoch =>
      if epoch = 0 then .ok (List.range 8) else .ok (List.range 16)
    HeadSeed := fun _ => .ok (List.replicate 32 0) }

/-- The response to an unfiltered request at head slot 5 under `smallConfig`,
`reverseShuffle` and `liveHead 5`; slot 5 is the second slot of epoch 1. -/
def responseAtSlot5 : BeaconCommittees :=
  { Epoch := 1
    Committees := [(8, [[15, 14], [13, 12]]), (7, [[3, 2], [1, 0]]), (6, [[7, 6], [5, 4]]),
      (5, [[11, 10], [9, 8]])]
    ActiveValidatorCount := 16 }

/-! ## Epoch transition: crosslinks

`epoch.ProcessCrosslinks` is called by the conformance test
`runCrosslinkProcessingTests` but its body is not among the sources.  The
definitions of this section follow section 4.7 of the specification. -/

/-- Modelled from the spec: the per-shard crosslink record (glossary), whose
declaration is not among the sources: the shard and the winning data root. -/
structure Crosslink where
  Shard : Nat
  DataRoot : List Nat
  deriving DecidableEq, Repr

/-- Modelled from the spec: an attestation as section 4.7 uses it, whose
declaration is not among the sources: the `(shard, dataRoot)` pair it
references, the attesting validators, its slot and its inclusion slot. -/
structure PendingAttestation where
  Shard : Nat
  DataRoot : List Nat
  AttestingIndices : List Nat
  Slot : Nat
  InclusionSlot : Nat
  deriving DecidableEq, Repr

/-- Modelled from the spec: the CrosslinkCandidate of section 3, whose
declaration is not among the sources. -/
structure CrosslinkCandidate where
  Shard : Nat
  DataRoot : List Nat
  AttestingBalance : Nat
  deriving DecidableEq, Repr

/-- Modelled from the spec: the part of the beacon state section 4.7 reads and
writes, whose declaration is not among the sources: effective balances by
validator index, the committee of each shard for the epoch, the attestations of
the epoch, the crosslinks by shard, and the committed inclusion distances. -/
structure BeaconState where
  EffectiveBalances : List Nat
  Committees : List (Nat × List Nat)
  Attestations : List PendingAttestation
  Crosslinks : List Crosslink
  InclusionDistances : List (Nat × Nat)
  deriving DecidableEq, Repr

/-- Modelled from the spec: the failures of section 4.7, `Internal` for missing
committee data and `Fatal` for overflow of a balance sum. -/
inductive TransitionError where
  | Internal
  | Fatal
  deriving DecidableEq, Repr

/-- Modelled from the spec: a sum of balances that does not wrap (section 4.7:
overflow while summing balances is fatal). -/
def checkedSum : List Nat → Except TransitionError Nat
  | [] => .ok 0
  | x :: xs =>
    match checkedSum xs with
    | .error e => .error e
    | .ok total => if x + total < uint64Size then .ok (x + total) else .error .Fatal

/-- Modelled from the spec: the effective balance of a validator index. -/
def effectiveBalance (st : BeaconState) (index : Nat) : Nat :=
  st.EffectiveBalances.getD index 0

/-- Modelled from the spec: the sum of the effective balances of a set of
validators. -/
def totalBalance (st : BeaconState) (indices : List Nat) : Except TransitionError Nat :=
  checkedSum (indices.map (effectiveBalance st))

/-- Modelled from the spec: the committee assigned to a shard, if any. -/
def shardCommittee (st : BeaconState) (shard : Nat) : Option (List Nat) :=
  st.Committees.lookup shard

/-- Modelled from the spec: the distinct data roots the attestations of the
epoch reference for a shard. -/
def dataRoots (st : BeaconState) (shard : Nat) : List (List Nat) :=
  ((st.Attestations.filter (fun a => a.Shard == shard)).map (fun a => a.DataRoot)).eraseDups

/-- Modelled from the spec: the members of the committee that attested to the
pair `(shard, dataRoot)`. -/
def attestingMembers (st : BeaconState) (shard : Nat) (dataRoot committee : List Nat) : List Nat :=
  committee.filter (fun v => st.Attestations.any (fun a =>
    a.Shard == shard && a.DataRoot == dataRoot && a.AttestingIndices.contains v))

/-- Modelled from the spec: TallyAttestations of section 4.7 for one shard:
per distinct `(shard, dataRoot)` pair, the sum of the effective balances of
the attesting members of the committee. -/
def tallyAttestations (st : BeaconState) (shard : Nat) (committee : List Nat) :
    List (List Nat) → Except TransitionError (List CrosslinkCandidate)
  | [] => .ok []
  | dataRoot :: rest =>
    match totalBalance st (attestingMembers st shard dataRoot committee) with
    | .error e => .error e
    | .ok balance =>
      match tallyAttestations st shard committee rest with
      | .error e => .error e
      | .ok candidates =>
        .ok ({ Shard := shard, DataRoot := dataRoot, AttestingBalance := balance } :: candidates)

/-- Modelled from the spec: the lexicographic order on data roots. -/
def lexLess : List Nat → List Nat → Bool
  | [], [] => false
  | [], _ :: _ => true
  | _ :: _, [] => false
  | x :: xs, y :: ys => x < y || (x == y && lexLess xs ys)

/-- Modelled from the spec: the order of SelectCrosslinks in section 4.7:
strictly greater attesting balance, ties broken by the lexicographically
smaller data root. -/
def beats (a b : CrosslinkCandidate) : Bool :=
  a.AttestingBalance > b.AttestingBalance
    || (a.AttestingBalance == b.AttestingBalance && lexLess a.DataRoot b.DataRoot)

/-- Modelled from the spec: the winning candidate of a list of candidates. -/
def selectWinner : List CrosslinkCandidate → Option CrosslinkCandidate
  | [] => none
  | c :: cs =>
    match selectWinner cs with
    | none => some c
    | some w => if beats c w then some c else some w

/-- Modelled from the spec: the winning candidate of a shard.  Attestations
that reference a shard without committee data are an `Internal` error. -/
def winningCandidate (st : BeaconState) (shard : Nat) :
    Except TransitionError (Option CrosslinkCandidate) :=
  match shardCommittee st shard with
  | none => if (dataRoots st shard).isEmpty then .ok none else .error .Internal
  | some committee =>
    match tallyAttestations st shard committee (dataRoots st shard) with
    | .error e => .error e
    | .ok candidates => .ok (selectWinner candidates)

/-- Modelled from the spec: the total effective balance of the committee of a
shard, the balance eligible to attest for the shard this epoch. -/
def committeeBalance (st : BeaconState) (shard : Nat) : Except TransitionError Nat :=
  match shardCommittee st shard with
  | none => .ok 0
  | some committee => totalBalance st committee

/-- Modelled from the spec: SelectCrosslinks of section 4.7 for one shard: the
winner becomes the crosslink when its attesting balance is at least two thirds
of the committee balance, otherwise the previous crosslink is retained. -/
def selectCrosslink (st : BeaconState) (shard : Nat) (previous : Crosslink) :
    Except TransitionError Crosslink :=
  match winningCandidate st shard with
  | .error e => .error e
  | .ok none => .ok previous
  | .ok (some winner) =>
    match committeeBalance st shard with
    | .error e => .error e
    | .ok total =>
      if 2 * total ≤ 3 * winner.AttestingBalance then
        .ok { Shard := shard, DataRoot := winner.DataRoot }
      else .ok previous

/-- Modelled from the spec: SelectCrosslinks over the shards, in shard order,
starting at `shard` with the previous crosslinks of the remaining shards. -/
def selectCrosslinks (st : BeaconState) : Nat → List Crosslink →
    Except TransitionError (List Crosslink)
  | _, [] => .ok []
  | shard, previous :: rest =>
    match selectCrosslink st shard previous with
    | .error e => .error e
    | .ok crosslink =>
      match selectCrosslinks st (shard + 1) rest with
      | .error e => .error e
      | .ok crosslinks => .ok (crosslink :: crosslinks)

/-- Modelled from the spec: the per-validator inclusion distance committed by
Finalize: slots between the attestation slot and the inclusion slot. -/
def inclusionDistances (st : BeaconState) : List (Nat × Nat) :=
  st.Attestations.flatMap (fun a => a.AttestingIndices.map (fun v => (v, a.InclusionSlot - a.Slot)))

/-- Modelled from the spec: `epoch.ProcessCrosslinks`, whose body is not among
the sources: the pipeline `TallyAttestations -> SelectCrosslinks -> Finalize`
of section 4.7. -/
def ProcessCrosslinks (pre : BeaconState) : Except TransitionError BeaconState :=
  match selectCrosslinks pre 0 pre.Crosslinks with
  | .error e => .error e
  | .ok crosslinks =>
    .ok { EffectiveBalances := pre.EffectiveBalances
          Committees := pre.Committees
          Attestations := pre.Attestations
          Crosslinks := crosslinks
          InclusionDistances := inclusionDistances pre }

/-- A state with two shards: on shard 0 validators 0 and 1 of a committee of
four attest to root `[7]`, on shard 1 validators 4, 5 and 6 of a committee of
four attest to root `[9]`.  Every effective balance is 32. -/
def twoShardState : BeaconState :=
  { EffectiveBalances := List.replicate 8 32
    Committees := [(0, [0, 1, 2, 3]), (1, [4, 5, 6, 7])]
    Attestations :=
      [{ Shard := 0, DataRoot := [7], AttestingIndices := [0, 1], Slot := 8, InclusionSlot := 9 },
       { Shard := 1, DataRoot := [9], AttestingIndices := [4, 5, 6], Slot := 9, InclusionSlot := 11 }]
    Crosslinks := [{ Shard := 0, DataRoot := [1] }, { Shard := 1, DataRoot := [2] }]
    InclusionDistances := [] }

/-- The state `ProcessCrosslinks` returns on `twoShardState`. -/
def twoShardPost : BeaconState :=
  { EffectiveBalances := List.replicate 8 32
    Committees := [(0, [0, 1, 2, 3]), (1, [4, 5, 6, 7])]
    Attestations :=
      [{ Shard := 0, DataRoot := [7], AttestingIndices := [0, 1], Slot := 8, InclusionSlot := 9 },
       { Shard := 1, DataRoot := [9], AttestingIndices := [4, 5, 6], Slot := 9, InclusionSlot := 11 }]
    Crosslinks := [{ Shard := 0, DataRoot := [1] }, { Shard := 1, DataRoot := [9] }]
    InclusionDistances := [(0, 1), (1, 1), (4, 2), (5, 2), (6, 2)] }

/-! ## Routing lemmas -/

theorem resolveStartSlot_cases (cfg : BeaconChainConfig) (bs : Server) (req : ListCommitteesRequest) :
    resolveStartSlot cfg bs req = bs.HeadFetcher.HeadSlot
      ∨ resolveStartSlot cfg bs req < uint64Size := by
  unfold resolveStartSlot
  cases hq : req.QueryFilter with
  | Epoch epoch =>
    right
    simp only [StartSlot]
    exact Nat.mod_lt _ (by unfold uint64Size; positivity)
  | Genesis genesis =>
    cases genesis
    · left; simp
    · right; simp [uint64Size]
  | unset => left; rfl

theorem slotToEpoch_succ_lt (cfg : BeaconChainConfig) (slot : Nat)
    (hspe : 2 ≤ cfg.SlotsPerEpoch) (hslot : slot < uint64Size) :
    SlotToEpoch cfg slot + 1 < uint64Size := by
  unfold SlotToEpoch
  have h1 : slot / cfg.SlotsPerEpoch ≤ slot / 2 := Nat.div_le_div_left hspe (by decide)
  unfold uint64Size at *
  omega

/-- The routing returns `InvalidArgument` as soon as the requested epoch lies
after the head epoch. -/
theorem fetch_future (cfg : BeaconChainConfig) (bs : Server) (startSlot : Nat)
    (hnowrap : SlotToEpoch cfg startSlot + 1 < uint64Size)
    (hfut : SlotToEpoch cfg bs.HeadFetcher.HeadSlot < SlotToEpoch cfg startSlot) :
    fetchIndicesAndSeed cfg bs startSlot = .error Code.InvalidArgument := by
  unfold fetchIndicesAndSeed
  have hmod : (SlotToEpoch cfg startSlot + 1) % uint64Size = SlotToEpoch cfg startSlot + 1 :=
    Nat.mod_eq_of_lt hnowrap
  simp only [hmod]
  rw [if_neg (by omega), if_neg (by omega)]

/-- C1: with `SlotsPerEpoch >= 2`, a request whose resolved start slot lies in
an epoch after the head epoch is answered with `InvalidArgument` and no
response, for every head fetcher and every archive. -/
theorem listBeaconCommittees_future_invalidArgument (cfg : BeaconChainConfig)
    (sh : ShuffleEngine) (bs : Server) (req : ListCommitteesRequest)
    (hspe : 2 ≤ cfg.SlotsPerEpoch)
    (hfut : SlotToEpoch cfg bs.HeadFetcher.HeadSlot
      < SlotToEpoch cfg (resolveStartSlot cfg bs req)) :
    ListBeaconCommittees cfg sh bs req = .error Code.InvalidArgument := by
  have hlt : resolveStartSlot cfg bs req < uint64Size := by
    rcases resolveStartSlot_cases cfg bs req with h | h
    · rw [h] at hfut; exact absurd hfut (lt_irrefl _)
    · exact h
  have hfetch := fetch_future cfg bs _ (slotToEpoch_succ_lt cfg _ hspe hlt) hfut
  unfold ListBeaconCommittees
  simp only [hfetch]

theorem listBeaconCommittees_future_invalidArgument_witness :
    2 ≤ smallConfig.SlotsPerEpoch
    ∧ SlotToEpoch smallConfig (liveHead 5).HeadSlot
        < SlotToEpoch smallConfig (resolveStartSlot smallConfig
            { HeadFetcher := liveHead 5, BeaconDB := fullDB } { QueryFilter := .Epoch 2 })
      ∧ ListBeaconCommittees smallConfig reverseShuffle
          { HeadFetcher := liveHead 5, BeaconDB := fullDB } { QueryFilter := .Epoch 2 }
        = .error Code.InvalidArgument :=
  ⟨by decide, by decide, listBeaconCommittees_future_invalidArgument smallConfig reverseShuffle
    { HeadFetcher := liveHead 5, BeaconDB := fullDB } { QueryFilter := .Epoch 2 }
    (by decide) (by decide)⟩

/-- The archival branch of the routing: taken when the requested epoch is more
than one epoch behind the head epoch. -/
theorem fetch_archival (cfg : BeaconChainConfig) (bs : Server) (startSlot : Nat)
    (hhead : bs.HeadFetcher.HeadSlot < uint64Size)
    (harch : SlotToEpoch cfg startSlot + 1 < SlotToEpoch cfg bs.HeadFetcher.HeadSlot) :
    fetchIndicesAndSeed cfg bs startSlot =
      match bs.HeadFetcher.HeadValidatorsIndices (SlotToEpoch cfg startSlot) with
      | .error _ => .error Code.Internal
      | .ok activeIndices =>
        match bs.BeaconDB.ArchivedCommitteeInfo (SlotToEpoch cfg startSlot) with
        | .error _ => .error Code.Internal
        | .ok none => .error Code.NotFound
        | .ok (some archivedCommitteeInfo) =>
          .ok (activeIndices, ToBytes32 archivedCommitteeInfo.AttesterSeed) := by
  have hle : SlotToEpoch cfg bs.HeadFetcher.HeadSlot ≤ bs.HeadFetcher.HeadSlot :=
    Nat.div_le_self _ _
  have hmod : (SlotToEpoch cfg startSlot + 1) % uint64Size = SlotToEpoch cfg startSlot + 1 :=
    Nat.mod_eq_of_lt (by omega)
  unfold fetchIndicesAndSeed
  simp only [hmod]
  rw [if_pos harch]

/-- The live branch of the routing: taken when the requested epoch is the head
epoch or the one before it. -/
theorem fetch_live (cfg : BeaconChainConfig) (bs : Server) (startSlot : Nat)
    (hnowrap : SlotToEpoch cfg startSlot + 1 < uint64Size)
    (hlive : SlotToEpoch cfg startSlot + 1 = SlotToEpoch cfg bs.HeadFetcher.HeadSlot
      ∨ SlotToEpoch cfg startSlot = SlotToEpoch cfg bs.HeadFetcher.HeadSlot) :
    fetchIndicesAndSeed cfg bs startSlot =
      match bs.HeadFetcher.HeadValidatorsIndices (SlotToEpoch cfg startSlot) with
      | .error _ => .error Code.Internal
      | .ok activeIndices =>
        match bs.HeadFetcher.HeadSeed (SlotToEpoch cfg startSlot) with
        | .error _ => .error Code.Internal
        | .ok attesterSeed => .ok (activeIndices, attesterSeed) := by
  have hmod : (SlotToEpoch cfg startSlot + 1) % uint64Size = SlotToEpoch cfg startSlot + 1 :=
    Nat.mod_eq_of_lt hnowrap
  unfold fetchIndicesAndSeed
  simp only [hmod]
  rw [if_neg (by omega), if_pos hlive]

/-- C2, as stated, fails: with archiving disabled and an archival epoch the
handler answers `Internal`, not `NotFound`, when the head index lookup fails,
because that lookup comes first. -/
theorem listBeaconCommittees_archive_disabled_internal :
    SlotToEpoch smallConfig (resolveStartSlot smallConfig
        { HeadFetcher := brokenHead 12, BeaconDB := emptyDB } { QueryFilter := .Epoch 0 }) + 1
      < SlotToEpoch smallConfig (brokenHead 12).HeadSlot
    ∧ emptyDB.ArchivedCommitteeInfo (SlotToEpoch smallConfig (resolveStartSlot smallConfig
        { HeadFetcher := brokenHead 12, BeaconDB := emptyDB } { QueryFilter := .Epoch 0 }))
      = .ok none
    ∧ ListBeaconCommittees smallConfig reverseShuffle
        { HeadFetcher := brokenHead 12, BeaconDB := emptyDB } { QueryFilter := .Epoch 0 }
      = .error Code.Internal := by
  decide

/-- C2, amended: for an archival epoch (`epoch(startSlot) + 1 < headEpoch`),
when the head index lookup for that epoch succeeds and the archive lookup
yields no record, the handler answers `NotFound`. -/
theorem listBeaconCommittees_archive_disabled_notFound (cfg : BeaconChainConfig)
    (sh : ShuffleEngine) (bs : Server) (req : ListCommitteesRequest) (activeIndices : List Nat)
    (hhead : bs.HeadFetcher.HeadSlot < uint64Size)
    (harch : SlotToEpoch cfg (resolveStartSlot cfg bs req) + 1
      < SlotToEpoch cfg bs.HeadFetcher.HeadSlot)
    (hidx : bs.HeadFetcher.HeadValidatorsIndices
      (SlotToEpoch cfg (resolveStartSlot cfg bs req)) = .ok activeIndices)
    (hdb : bs.BeaconDB.ArchivedCommitteeInfo
      (SlotToEpoch cfg (resolveStartSlot cfg bs req)) = .ok none) :
    ListBeaconCommittees cfg sh bs req = .error Code.NotFound := by
  have hfetch := fetch_archival cfg bs _ hhead harch
  rw [hidx] at hfetch
  simp only [hdb] at hfetch
  unfold ListBeaconCommittees
  simp only [hfetch]

theorem listBeaconCommittees_archive_disabled_notFound_witness :
    (liveHead 12).HeadSlot < uint64Size
    ∧ SlotToEpoch smallConfig (resolveStartSlot smallConfig
        { HeadFetcher := liveHead 12, BeaconDB := emptyDB } { QueryFilter := .Epoch 0 }) + 1
      < SlotToEpoch smallConfig (liveHead 12).HeadSlot
    ∧ (liveHead 12).HeadValidatorsIndices (SlotToEpoch smallConfig (resolveStartSlot smallConfig
        { HeadFetcher := liveHead 12, BeaconDB := emptyDB } { QueryFilter := .Epoch 0 }))
      = .ok (List.range 16)
    ∧ emptyDB.ArchivedCommitteeInfo (SlotToEpoch smallConfig (resolveStartSlot smallConfig
        { HeadFetcher := liveHead 12, BeaconDB := emptyDB } { QueryFilter := .Epoch 0 }))
      = .ok none
    ∧ ListBeaconCommittees smallConfig reverseShuffle
        { HeadFetcher := liveHead 12, BeaconDB := emptyDB } { QueryFilter := .Epoch 0 }
      = .error Code.NotFound :=
  ⟨by decide, by decide, rfl, rfl,
    listBeaconCommittees_archive_disabled_notFound smallConfig reverseShuffle
      { HeadFetcher := liveHead 12, BeaconDB := emptyDB } { QueryFilter := .Epoch 0 }
      (List.range 16) (by decide) (by decide) rfl rfl⟩

/-! ## The loops -/

theorem committeeItems_error (compute : Nat → Except String (List Nat)) (n : Nat) (c : Code)
    (h : committeeItems compute n = .error c) : c = Code.Internal := by
  induction n generalizing c with
  | zero => simp [committeeItems] at h
  | succ n ih =>
    simp only [committeeItems] at h
    cases hrec : committeeItems compute n with
    | error c1 =>
      rw [hrec] at h
      simp only [Except.error.injEq] at h
      exact h ▸ ih c1 hrec
    | ok items =>
      rw [hrec] at h
      cases hc : compute n with
      | error e => rw [hc] at h; simp only [Except.error.injEq] at h; exact h.symm
      | ok committee => rw [hc] at h; simp at h

/-- The inner loop succeeds exactly when every committee computation does, and
then returns the committees in index order. -/
theorem committeeItems_ok_iff (compute : Nat → Except String (List Nat)) (n : Nat)
    (items : List (List Nat)) :
    committeeItems compute n = .ok items ↔
      (List.range n).map compute = items.map Except.ok := by
  induction n generalizing items with
  | zero =>
    simp only [committeeItems, Except.ok.injEq, List.range_zero, List.map_nil]
    constructor
    · intro h; subst h; rfl
    · intro h; exact (List.map_eq_nil_iff.mp h.symm).symm
  | succ n ih =>
    simp only [committeeItems, List.range_succ, List.map_append, List.map_cons, List.map_nil]
    constructor
    · intro h
      cases hrec : committeeItems compute n with
      | error c1 => rw [hrec] at h; cases h
      | ok pre =>
        rw [hrec] at h
        cases hc : compute n with
        | error e => rw [hc] at h; cases h
        | ok committee =>
          rw [hc] at h
          simp only [Except.ok.injEq] at h
          subst h
          rw [(ih pre).mp hrec]
          simp
    · intro h
      obtain ⟨l1, l2, hitems, h1, h2⟩ := List.append_eq_map_iff.mp h
      rw [(ih l1).mpr h1.symm]
      obtain ⟨c, t, hl2, hc, ht⟩ := List.map_eq_cons_iff.mp h2
      rw [List.map_eq_nil_iff] at ht
      subst ht hl2
      simp only [← hc, hitems]

theorem committeeItems_length (compute : Nat → Except String (List Nat)) (n : Nat)
    (items : List (List Nat)) (h : committeeItems compute n = .ok items) :
    items.length = n := by
  have := congrArg List.length ((committeeItems_ok_iff compute n items).mp h)
  simpa using this.symm

theorem assign_of_lt (m : CommitteesMap) (slot : Nat) (items : List (List Nat))
    (hm : ∀ p ∈ m, p.1 < slot) : m.assign slot items = (slot, items) :: m := by
  unfold CommitteesMap.assign
  congr 1
  rw [List.filter_eq_self]
  intro p hp
  have := hm p hp
  simp only [bne_iff_ne, ne_eq]
  omega

theorem slotLoop_error (cfg : BeaconChainConfig) (sh : ShuffleEngine)
    (activeIndices attesterSeed : List Nat) (trips slot : Nat) (m : CommitteesMap) (c : Code)
    (h : slotLoop cfg sh activeIndices attesterSeed trips slot m = .error c) :
    c = Code.Internal := by
  induction trips generalizing slot m with
  | zero => simp [slotLoop] at h
  | succ t ih =>
    simp only [slotLoop] at h
    cases hitems : committeeItems (BeaconCommittee cfg sh activeIndices attesterSeed slot)
        (countAtSlot cfg activeIndices) with
    | error c1 =>
      rw [hitems] at h
      simp only [Except.error.injEq] at h
      exact h ▸ committeeItems_error _ _ _ hitems
    | ok items =>
      rw [hitems] at h
      exact ih _ _ h

/-- The outer loop succeeds exactly when the inner loop succeeds at each of its
slots, and then it has added one entry per slot to the map. -/
theorem slotLoop_ok_iff (cfg : BeaconChainConfig) (sh : ShuffleEngine)
    (activeIndices attesterSeed : List Nat) (trips slot : Nat) (m r : CommitteesMap)
    (hm : ∀ p ∈ m, p.1 < slot) :
    slotLoop cfg sh activeIndices attesterSeed trips slot m = .ok r ↔
      (∀ s ∈ List.range' slot trips,
        committeeItems (BeaconCommittee cfg sh activeIndices attesterSeed s)
          (countAtSlot cfg activeIndices)
          = .ok (slotItems cfg sh activeIndices attesterSeed s))
      ∧ r = (List.range' slot trips).reverse.map
          (fun s => (s, slotItems cfg sh activeIndices attesterSeed s)) ++ m := by
  induction trips generalizing slot m with
  | zero =>
    simp only [slotLoop, Except.ok.injEq, List.range'_zero, List.not_mem_nil, false_implies,
      implies_true, List.reverse_nil, List.map_nil, List.nil_append, true_and]
    exact eq_comm
  | succ t ih =>
    simp only [slotLoop]
    cases hitems : committeeItems (BeaconCommittee cfg sh activeIndices attesterSeed slot)
        (countAtSlot cfg activeIndices) with
    | error c1 =>
      constructor
      · intro h; cases h
      · rintro ⟨hall, -⟩
        have := hall slot (by simp [List.mem_range'_1])
        rw [hitems] at this
        cases this
    | ok items =>
      have hsi : slotItems cfg sh activeIndices attesterSeed slot = items := by
        unfold slotItems; rw [hitems]
      have hm2 : ∀ p ∈ m.assign slot items, p.1 < slot + 1 := by
        rw [assign_of_lt m slot items hm]
        intro p hp
        rcases List.mem_cons.mp hp with h | h
        · subst h; simp
        · have := hm p h; omega
      simp only []
      rw [ih (slot + 1) (m.assign slot items) hm2, assign_of_lt m slot items hm]
      simp only [List.range'_succ, List.mem_cons, forall_eq_or_imp, hitems, hsi, true_and,
        List.reverse_cons, List.map_append, List.map_cons, List.map_nil, List.append_assoc,
        List.singleton_append]

/-! ## Shape of a successful response -/

/-- A response is returned exactly when the routing yields active indices and a
seed and the loop over the slots succeeds on them. -/
theorem listBeaconCommittees_ok_iff (cfg : BeaconChainConfig) (sh : ShuffleEngine) (bs : Server)
    (req : ListCommitteesRequest) (resp : BeaconCommittees) :
    ListBeaconCommittees cfg sh bs req = .ok resp ↔
      ∃ activeIndices attesterSeed,
        fetchIndicesAndSeed cfg bs (resolveStartSlot cfg bs req)
          = .ok (activeIndices, attesterSeed)
        ∧ buildCommitteesList cfg sh activeIndices attesterSeed (resolveStartSlot cfg bs req)
          = .ok resp.Committees
        ∧ resp.Epoch = SlotToEpoch cfg (resolveStartSlot cfg bs req)
        ∧ resp.ActiveValidatorCount = activeIndices.length := by
  simp only [ListBeaconCommittees]
  cases hf : fetchIndicesAndSeed cfg bs (resolveStartSlot cfg bs req) with
  | error c =>
    constructor
    · intro h; cases h
    · rintro ⟨_, _, h, -⟩; cases h
  | ok pr =>
    obtain ⟨idx, seed⟩ := pr
    simp only []
    cases hb : buildCommitteesList cfg sh idx seed (resolveStartSlot cfg bs req) with
    | error c =>
      constructor
      · intro h; cases h
      · rintro ⟨i2, s2, h, h2, -⟩
        simp only [Except.ok.injEq, Prod.mk.injEq] at h
        obtain ⟨rfl, rfl⟩ := h
        rw [hb] at h2; cases h2
    | ok cl =>
      constructor
      · intro h
        simp only [Except.ok.injEq] at h
        subst h
        exact ⟨idx, seed, rfl, hb, rfl, rfl⟩
      · rintro ⟨i2, s2, h, h2, h3, h4⟩
        simp only [Except.ok.injEq, Prod.mk.injEq] at h
        obtain ⟨rfl, rfl⟩ := h
        rw [hb] at h2
        simp only [Except.ok.injEq] at h2
        cases resp
        simp only at h2 h3 h4
        subst h2 h3 h4
        rfl

/-- Every error of the handler that is not raised by the routing is `Internal`. -/
theorem buildCommitteesList_error (cfg : BeaconChainConfig) (sh : ShuffleEngine)
    (activeIndices attesterSeed : List Nat) (startSlot : Nat) (c : Code)
    (h : buildCommitteesList cfg sh activeIndices attesterSeed startSlot = .error c) :
    c = Code.Internal :=
  slotLoop_error cfg sh activeIndices attesterSeed _ _ _ c h

/-- Without overflow of the loop bound the loop runs `SlotsPerEpoch` times. -/
theorem buildCommitteesList_ok_iff (cfg : BeaconChainConfig) (sh : ShuffleEngine)
    (activeIndices attesterSeed : List Nat) (startSlot : Nat) (r : CommitteesMap)
    (hno : startSlot + cfg.SlotsPerEpoch < uint64Size) :
    buildCommitteesList cfg sh activeIndices attesterSeed startSlot = .ok r ↔
      (∀ s ∈ List.range' startSlot cfg.SlotsPerEpoch,
        committeeItems (BeaconCommittee cfg sh activeIndices attesterSeed s)
          (countAtSlot cfg activeIndices)
          = .ok (slotItems cfg sh activeIndices attesterSeed s))
      ∧ r = (List.range' startSlot cfg.SlotsPerEpoch).reverse.map
          (fun s => (s, slotItems cfg sh activeIndices attesterSeed s)) := by
  unfold buildCommitteesList
  have hb : (startSlot + cfg.SlotsPerEpoch) % uint64Size - startSlot = cfg.SlotsPerEpoch := by
    rw [Nat.mod_eq_of_lt hno]; omega
  simp only [hb]
  rw [slotLoop_ok_iff cfg sh activeIndices attesterSeed _ _ [] r (by simp)]
  simp

theorem countAtSlot_eq (cfg : BeaconChainConfig) (activeIndices : List Nat) :
    countAtSlot cfg activeIndices
      = max 1 (min (activeIndices.length / cfg.SlotsPerEpoch / cfg.TargetCommitteeSize)
          cfg.MaxCommitteesPerSlot) := by
  unfold countAtSlot
  generalize activeIndices.length / cfg.SlotsPerEpoch / cfg.TargetCommitteeSize = q
  simp only [Nat.max_def, Nat.min_def]
  split_ifs <;> omega

theorem countAtSlot_pos (cfg : BeaconChainConfig) (activeIndices : List Nat) :
    1 ≤ countAtSlot cfg activeIndices := by
  rw [countAtSlot_eq]; exact le_max_left _ _

/-- Every entry of the map the loop returns holds `countAtSlot` committees. -/
theorem buildCommitteesList_entry_length (cfg : BeaconChainConfig) (sh : ShuffleEngine)
    (activeIndices attesterSeed : List Nat) (startSlot : Nat) (r : CommitteesMap)
    (h : buildCommitteesList cfg sh activeIndices attesterSeed startSlot = .ok r) :
    ∀ p ∈ r, p.2.length = countAtSlot cfg activeIndices := by
  unfold buildCommitteesList at h
  obtain ⟨hall, hr⟩ := (slotLoop_ok_iff cfg sh activeIndices attesterSeed _ _ [] r (by simp)).mp h
  intro p hp
  rw [hr, List.append_nil, List.mem_map] at hp
  obtain ⟨s, hs, rfl⟩ := hp
  exact committeeItems_length _ _ _ (hall s (List.mem_reverse.mp hs))

/-- C3, as stated, fails: with `MaxCommitteesPerSlot = 0` (and positive
`SlotsPerEpoch` and `TargetCommitteeSize`) every slot of a successful response
holds one committee, which is above the bound. -/
theorem listBeaconCommittees_count_above_zero_max :
    0 < zeroMaxConfig.SlotsPerEpoch ∧ 0 < zeroMaxConfig.TargetCommitteeSize
    ∧ ∃ resp, ListBeaconCommittees zeroMaxConfig reverseShuffle
        { HeadFetcher := liveHead 4, BeaconDB := emptyDB } { QueryFilter := .unset } = .ok resp
      ∧ ∀ p ∈ resp.Committees, zeroMaxConfig.MaxCommitteesPerSlot < p.2.length :=
  ⟨by decide, by decide, _, rfl, by decide⟩

/-- C3, amended: with a positive `MaxCommitteesPerSlot`, every slot of a
successful response with `N` active indices holds the same number of
committees, `N / SlotsPerEpoch / TargetCommitteeSize` clamped into
`1 .. MaxCommitteesPerSlot`; for `N = 4096` and the constants 64, 128, 64 the
handler computes the count 1.  (Positive `SlotsPerEpoch` and
`TargetCommitteeSize` are what keeps the Go divisions from panicking; the
statement does not depend on them.) -/
theorem listBeaconCommittees_committee_count (cfg : BeaconChainConfig) (sh : ShuffleEngine)
    (bs : Server) (req : ListCommitteesRequest) (resp : BeaconCommittees)
    (hmax : 0 < cfg.MaxCommitteesPerSlot)
    (h : ListBeaconCommittees cfg sh bs req = .ok resp) :
    (∀ p ∈ resp.Committees, p.2.length
        = max 1 (min (resp.ActiveValidatorCount / cfg.SlotsPerEpoch / cfg.TargetCommitteeSize)
            cfg.MaxCommitteesPerSlot))
    ∧ 1 ≤ max 1 (min (resp.ActiveValidatorCount / cfg.SlotsPerEpoch / cfg.TargetCommitteeSize)
        cfg.MaxCommitteesPerSlot)
    ∧ max 1 (min (resp.ActiveValidatorCount / cfg.SlotsPerEpoch / cfg.TargetCommitteeSize)
        cfg.MaxCommitteesPerSlot) ≤ cfg.MaxCommitteesPerSlot
    ∧ ∀ activeIndices : List Nat, activeIndices.length = 4096 →
        countAtSlot { SlotsPerEpoch := 64, TargetCommitteeSize := 128, MaxCommitteesPerSlot := 64 }
          activeIndices = 1 := by
  obtain ⟨idx, seed, -, hb, -, hcount⟩ := (listBeaconCommittees_ok_iff cfg sh bs req resp).mp h
  refine ⟨?_, le_max_left _ _, max_le hmax (min_le_right _ _), ?_⟩
  · intro p hp
    rw [buildCommitteesList_entry_length cfg sh idx seed _ _ hb p hp, countAtSlot_eq, hcount]
  · intro activeIndices hlen
    simp [countAtSlot, hlen]

theorem listBeaconCommittees_committee_count_witness :
    0 < smallConfig.MaxCommitteesPerSlot
    ∧ ListBeaconCommittees smallConfig reverseShuffle
        { HeadFetcher := liveHead 4, BeaconDB := emptyDB } { QueryFilter := .unset }
      = .ok responseAtSlot4
    ∧ (∀ p ∈ responseAtSlot4.Committees, p.2.length
        = max 1 (min (responseAtSlot4.ActiveValidatorCount / smallConfig.SlotsPerEpoch
            / smallConfig.TargetCommitteeSize) smallConfig.MaxCommitteesPerSlot))
    ∧ 1 ≤ max 1 (min (responseAtSlot4.ActiveValidatorCount / smallConfig.SlotsPerEpoch
        / smallConfig.TargetCommitteeSize) smallConfig.MaxCommitteesPerSlot)
    ∧ max 1 (min (responseAtSlot4.ActiveValidatorCount / smallConfig.SlotsPerEpoch
        / smallConfig.TargetCommitteeSize) smallConfig.MaxCommitteesPerSlot)
        ≤ smallConfig.MaxCommitteesPerSlot
    ∧ ∀ activeIndices : List Nat, activeIndices.length = 4096 →
        countAtSlot { SlotsPerEpoch := 64, TargetCommitteeSize := 128, MaxCommitteesPerSlot := 64 }
          activeIndices = 1 :=
  ⟨by decide, by decide,
    listBeaconCommittees_committee_count smallConfig reverseShuffle
      { HeadFetcher := liveHead 4, BeaconDB := emptyDB } { QueryFilter := .unset } responseAtSlot4
      (by decide) (by decide)⟩

/-- C7: at head slot `2^64 - 2` with 4 slots per epoch, the unfiltered request
succeeds, but the bound `startSlot + SlotsPerEpoch` of the loop (line 103)
wraps to 2, the loop body never runs and the response holds an empty map
instead of `SlotsPerEpoch` entries. -/
theorem listBeaconCommittees_empty_map_on_wrap :
    ∃ resp, ListBeaconCommittees smallConfig reverseShuffle
        { HeadFetcher := liveHead (2 ^ 64 - 2), BeaconDB := emptyDB } { QueryFilter := .unset }
        = .ok resp
      ∧ resp.Committees.length = 0 ∧ resp.Committees.length ≠ smallConfig.SlotsPerEpoch :=
  ⟨_, rfl, by decide, by decide⟩

/-- When `startSlot + SlotsPerEpoch` stays below `2^64`, the map of a
successful response has exactly `SlotsPerEpoch` entries, one for each slot of
`[startSlot, startSlot + SlotsPerEpoch)` and no others, the response epoch is
`epoch(startSlot)`, and the active validator count is the length of the index
sequence the committees were built from. -/
theorem listBeaconCommittees_response_shape (cfg : BeaconChainConfig) (sh : ShuffleEngine)
    (bs : Server) (req : ListCommitteesRequest) (resp : BeaconCommittees)
    (hno : resolveStartSlot cfg bs req + cfg.SlotsPerEpoch < uint64Size)
    (h : ListBeaconCommittees cfg sh bs req = .ok resp) :
    resp.Committees.length = cfg.SlotsPerEpoch
    ∧ (resp.Committees.map Prod.fst).Nodup
    ∧ (∀ k, k ∈ resp.Committees.map Prod.fst ↔
        resolveStartSlot cfg bs req ≤ k
          ∧ k < resolveStartSlot cfg bs req + cfg.SlotsPerEpoch)
    ∧ resp.Epoch = SlotToEpoch cfg (resolveStartSlot cfg bs req)
    ∧ ∃ activeIndices attesterSeed,
        fetchIndicesAndSeed cfg bs (resolveStartSlot cfg bs req)
          = .ok (activeIndices, attesterSeed)
        ∧ buildCommitteesList cfg sh activeIndices attesterSeed (resolveStartSlot cfg bs req)
          = .ok resp.Committees
        ∧ resp.ActiveValidatorCount = activeIndices.length := by
  obtain ⟨idx, seed, hf, hb, hep, hcount⟩ := (listBeaconCommittees_ok_iff cfg sh bs req resp).mp h
  obtain ⟨-, hr⟩ := (buildCommitteesList_ok_iff cfg sh idx seed _ _ hno).mp hb
  have hkeys : resp.Committees.map Prod.fst
      = (List.range' (resolveStartSlot cfg bs req) cfg.SlotsPerEpoch).reverse := by
    rw [hr, List.map_map]
    exact List.map_id _
  refine ⟨?_, ?_, ?_, hep, idx, seed, hf, hb, hcount⟩
  · rw [hr]; simp
  · rw [hkeys, List.nodup_reverse]; exact List.nodup_range' _ _
  · intro k
    rw [hkeys, List.mem_reverse, List.mem_range'_1]

theorem listBeaconCommittees_response_shape_witness :
    resolveStartSlot smallConfig { HeadFetcher := liveHead 4, BeaconDB := emptyDB }
        { QueryFilter := .unset } + smallConfig.SlotsPerEpoch < uint64Size
    ∧ ListBeaconCommittees smallConfig reverseShuffle
        { HeadFetcher := liveHead 4, BeaconDB := emptyDB } { QueryFilter := .unset }
      = .ok responseAtSlot4
    ∧ responseAtSlot4.Committees.length = smallConfig.SlotsPerEpoch
    ∧ (responseAtSlot4.Committees.map Prod.fst).Nodup
    ∧ (∀ k, k ∈ responseAtSlot4.Committees.map Prod.fst ↔ 4 ≤ k ∧ k < 4 + 4)
    ∧ responseAtSlot4.Epoch = 1
    ∧ ∃ activeIndices attesterSeed,
        fetchIndicesAndSeed smallConfig { HeadFetcher := liveHead 4, BeaconDB := emptyDB } 4
          = .ok (activeIndices, attesterSeed)
        ∧ buildCommitteesList smallConfig reverseShuffle activeIndices attesterSeed 4
          = .ok responseAtSlot4.Committees
        ∧ responseAtSlot4.ActiveValidatorCount = activeIndices.length :=
  ⟨by decide, by decide,
    listBeaconCommittees_response_shape smallConfig reverseShuffle
      { HeadFetcher := liveHead 4, BeaconDB := emptyDB } { QueryFilter := .unset } responseAtSlot4
      (by decide) (by decide)⟩

/-! ## Failure of the loops -/

theorem except_not_ok_iff {ε α : Type} (x : Except ε α) :
    (¬ ∃ a, x = .ok a) ↔ ∃ e, x = .error e := by
  cases x with
  | error e => exact ⟨fun _ => ⟨e, rfl⟩, fun _ ⟨a, ha⟩ => by cases ha⟩
  | ok a => exact ⟨fun h => absurd ⟨a, rfl⟩ h, fun ⟨e, he⟩ => by cases he⟩

theorem committeeItems_isOk_iff (compute : Nat → Except String (List Nat)) (n : Nat) :
    (∃ items, committeeItems compute n = .ok items) ↔ ∀ i < n, ∃ c, compute i = .ok c := by
  constructor
  · rintro ⟨items, h⟩ i hi
    have hmap := (committeeItems_ok_iff compute n items).mp h
    have hlen := committeeItems_length compute n items h
    have hi2 : i < items.length := by omega
    refine ⟨items[i], ?_⟩
    have := congrArg (fun l => l[i]?) hmap
    simp only [List.getElem?_map, List.getElem?_range hi, Option.map_some,
      List.getElem?_eq_getElem hi2] at this
    exact Option.some.inj this
  · intro hall
    induction n with
    | zero => exact ⟨[], rfl⟩
    | succ n ih =>
      obtain ⟨pre, hpre⟩ := ih (fun i hi => hall i (by omega))
      obtain ⟨c, hc⟩ := hall n (by omega)
      exact ⟨pre ++ [c], by simp only [committeeItems, hpre, hc]⟩

theorem committeeItems_slotItems (cfg : BeaconChainConfig) (sh : ShuffleEngine)
    (activeIndices attesterSeed : List Nat) (slot : Nat) :
    committeeItems (BeaconCommittee cfg sh activeIndices attesterSeed slot)
        (countAtSlot cfg activeIndices)
      = .ok (slotItems cfg sh activeIndices attesterSeed slot) ↔
    ∀ i < countAtSlot cfg activeIndices,
      ∃ c, BeaconCommittee cfg sh activeIndices attesterSeed slot i = .ok c := by
  rw [← committeeItems_isOk_iff]
  constructor
  · intro h; exact ⟨_, h⟩
  · rintro ⟨items, h⟩
    unfold slotItems
    rw [h]

/-- The loop over the slots fails, with `Internal`, exactly when one of the
committee computations it performs fails. -/
theorem buildCommitteesList_error_iff (cfg : BeaconChainConfig) (sh : ShuffleEngine)
    (activeIndices attesterSeed : List Nat) (startSlot : Nat) :
    buildCommitteesList cfg sh activeIndices attesterSeed startSlot = .error Code.Internal ↔
      ∃ slot, startSlot ≤ slot ∧ slot < (startSlot + cfg.SlotsPerEpoch) % uint64Size
        ∧ ∃ i < countAtSlot cfg activeIndices,
            ∃ e, BeaconCommittee cfg sh activeIndices attesterSeed slot i = .error e := by
  have hok : (∃ r, buildCommitteesList cfg sh activeIndices attesterSeed startSlot = .ok r) ↔
      ∀ slot, startSlot ≤ slot → slot < (startSlot + cfg.SlotsPerEpoch) % uint64Size →
        ∀ i < countAtSlot cfg activeIndices,
          ∃ c, BeaconCommittee cfg sh activeIndices attesterSeed slot i = .ok c := by
    unfold buildCommitteesList
    constructor
    · rintro ⟨r, hr⟩ slot h1 h2
      obtain ⟨hall, -⟩ :=
        (slotLoop_ok_iff cfg sh activeIndices attesterSeed _ _ [] r (by simp)).mp hr
      exact (committeeItems_slotItems cfg sh activeIndices attesterSeed slot).mp
        (hall slot (List.mem_range'_1.mpr ⟨h1, by omega⟩))
    · intro hall
      refine ⟨_, (slotLoop_ok_iff cfg sh activeIndices attesterSeed _ _ [] _ (by simp)).mpr
        ⟨fun s hs => ?_, rfl⟩⟩
      obtain ⟨h1, h2⟩ := List.mem_range'_1.mp hs
      exact (committeeItems_slotItems cfg sh activeIndices attesterSeed s).mpr
        (hall s h1 (by omega))
  constructor
  · intro herr
    have hnot : ¬ ∃ r, buildCommitteesList cfg sh activeIndices attesterSeed startSlot = .ok r := by
      rintro ⟨r, hr⟩; rw [hr] at herr; cases herr
    rw [hok] at hnot
    push_neg at hnot
    obtain ⟨slot, h1, h2, i, hi, hfail⟩ := hnot
    exact ⟨slot, h1, h2, i, hi, (except_not_ok_iff _).mp (by push_neg; exact hfail)⟩
  · rintro ⟨slot, h1, h2, i, hi, e, he⟩
    cases hb : buildCommitteesList cfg sh activeIndices attesterSeed startSlot with
    | error c => rw [buildCommitteesList_error cfg sh activeIndices attesterSeed startSlot c hb]
    | ok r =>
      obtain ⟨c, hc⟩ := hok.mp ⟨r, hb⟩ slot h1 h2 i hi
      rw [hc] at he; cases he

/-! ## The live route -/

/-- On the live route the handler is a function of the head indices, the head
seed and the loop over the slots. -/
theorem listBeaconCommittees_live_eq (cfg : BeaconChainConfig) (sh : ShuffleEngine) (bs : Server)
    (req : ListCommitteesRequest)
    (hnowrap : SlotToEpoch cfg (resolveStartSlot cfg bs req) + 1 < uint64Size)
    (hlive : SlotToEpoch cfg (resolveStartSlot cfg bs req) + 1
        = SlotToEpoch cfg bs.HeadFetcher.HeadSlot
      ∨ SlotToEpoch cfg (resolveStartSlot cfg bs req) = SlotToEpoch cfg bs.HeadFetcher.HeadSlot) :
    ListBeaconCommittees cfg sh bs req =
      match bs.HeadFetcher.HeadValidatorsIndices (SlotToEpoch cfg (resolveStartSlot cfg bs req)) with
      | .error _ => .error Code.Internal
      | .ok activeIndices =>
        match bs.HeadFetcher.HeadSeed (SlotToEpoch cfg (resolveStartSlot cfg bs req)) with
        | .error _ => .error Code.Internal
        | .ok attesterSeed =>
          match buildCommitteesList cfg sh activeIndices attesterSeed
              (resolveStartSlot cfg bs req) with
          | .error c => .error c
          | .ok committeesList =>
            .ok { Epoch := SlotToEpoch cfg (resolveStartSlot cfg bs req)
                  Committees := committeesList
                  ActiveValidatorCount := activeIndices.length } := by
  have hfetch := fetch_live cfg bs _ hnowrap hlive
  simp only [ListBeaconCommittees, hfetch]
  cases bs.HeadFetcher.HeadValidatorsIndices (SlotToEpoch cfg (resolveStartSlot cfg bs req)) with
  | error e => rfl
  | ok idx =>
    cases bs.HeadFetcher.HeadSeed (SlotToEpoch cfg (resolveStartSlot cfg bs req)) with
    | error e => rfl
    | ok seed => rfl

/-- C10: with one slot per epoch and the head at slot `2^64 - 1`, an unfiltered
request has `epoch(startSlot) == headEpoch`, yet `epoch(startSlot) + 1`
(line 44) wraps to 0, the archival branch is taken, the archive is consulted
and `NotFound` is returned when it holds no record. -/
theorem listBeaconCommittees_live_epoch_routed_archival :
    SlotToEpoch oneSlotConfig (resolveStartSlot oneSlotConfig
        { HeadFetcher := liveHead (2 ^ 64 - 1), BeaconDB := emptyDB } { QueryFilter := .unset })
      = SlotToEpoch oneSlotConfig (liveHead (2 ^ 64 - 1)).HeadSlot
    ∧ ListBeaconCommittees oneSlotConfig reverseShuffle
        { HeadFetcher := liveHead (2 ^ 64 - 1), BeaconDB := emptyDB } { QueryFilter := .unset }
      = .error Code.NotFound
    ∧ ListBeaconCommittees oneSlotConfig reverseShuffle
        { HeadFetcher := liveHead (2 ^ 64 - 1), BeaconDB := fullDB } { QueryFilter := .unset }
      ≠ .error Code.NotFound := by
  decide

/-- With `SlotsPerEpoch >= 2`, a positive `TargetCommitteeSize` and a 64-bit
head slot, a request with `epoch(startSlot) + 1 == headEpoch` or
`epoch(startSlot) == headEpoch` gets the same answer whatever the archive
holds, never gets `NotFound` or `InvalidArgument`, gets `Internal` exactly when
the head index lookup, the head seed lookup or one of the committee
computations of the loop fails, and otherwise gets a response whose committees
are built from those head indices and that head seed. -/
theorem listBeaconCommittees_live_route (cfg : BeaconChainConfig) (sh : ShuffleEngine)
    (bs : Server) (req : ListCommitteesRequest)
    (hspe : 2 ≤ cfg.SlotsPerEpoch) (htcs : 0 < cfg.TargetCommitteeSize)
    (hhead : bs.HeadFetcher.HeadSlot < uint64Size)
    (hlive : SlotToEpoch cfg (resolveStartSlot cfg bs req) + 1
        = SlotToEpoch cfg bs.HeadFetcher.HeadSlot
      ∨ SlotToEpoch cfg (resolveStartSlot cfg bs req) = SlotToEpoch cfg bs.HeadFetcher.HeadSlot) :
    (∀ db : BeaconDB,
      ListBeaconCommittees cfg sh { HeadFetcher := bs.HeadFetcher, BeaconDB := db } req
        = ListBeaconCommittees cfg sh bs req)
    ∧ ListBeaconCommittees cfg sh bs req ≠ .error Code.NotFound
    ∧ ListBeaconCommittees cfg sh bs req ≠ .error Code.InvalidArgument
    ∧ (ListBeaconCommittees cfg sh bs req = .error Code.Internal ↔
        (∃ e, bs.HeadFetcher.HeadValidatorsIndices
            (SlotToEpoch cfg (resolveStartSlot cfg bs req)) = .error e)
        ∨ (∃ e, bs.HeadFetcher.HeadSeed
            (SlotToEpoch cfg (resolveStartSlot cfg bs req)) = .error e)
        ∨ ∃ activeIndices attesterSeed,
            bs.HeadFetcher.HeadValidatorsIndices
              (SlotToEpoch cfg (resolveStartSlot cfg bs req)) = .ok activeIndices
            ∧ bs.HeadFetcher.HeadSeed
              (SlotToEpoch cfg (resolveStartSlot cfg bs req)) = .ok attesterSeed
            ∧ ∃ slot, resolveStartSlot cfg bs req ≤ slot
              ∧ slot < (resolveStartSlot cfg bs req + cfg.SlotsPerEpoch) % uint64Size
              ∧ ∃ i < countAtSlot cfg activeIndices,
                  ∃ e, BeaconCommittee cfg sh activeIndices attesterSeed slot i = .error e)
    ∧ (ListBeaconCommittees cfg sh bs req ≠ .error Code.Internal →
        ∃ activeIndices attesterSeed committeesList,
          bs.HeadFetcher.HeadValidatorsIndices
            (SlotToEpoch cfg (resolveStartSlot cfg bs req)) = .ok activeIndices
          ∧ bs.HeadFetcher.HeadSeed
            (SlotToEpoch cfg (resolveStartSlot cfg bs req)) = .ok attesterSeed
          ∧ buildCommitteesList cfg sh activeIndices attesterSeed (resolveStartSlot cfg bs req)
            = .ok committeesList
          ∧ ListBeaconCommittees cfg sh bs req
            = .ok { Epoch := SlotToEpoch cfg (resolveStartSlot cfg bs req)
                    Committees := committeesList
                    ActiveValidatorCount := activeIndices.length }) := by
  have _ := htcs
  have hstart : resolveStartSlot cfg bs req < uint64Size := by
    rcases resolveStartSlot_cases cfg bs req with h | h
    · rw [h]; exact hhead
    · exact h
  have hnowrap := slotToEpoch_succ_lt cfg _ hspe hstart
  have heq := listBeaconCommittees_live_eq cfg sh bs req hnowrap hlive
  refine ⟨fun db => ?_, ?_⟩
  · rw [heq]
    exact listBeaconCommittees_live_eq cfg sh { HeadFetcher := bs.HeadFetcher, BeaconDB := db } req
      hnowrap hlive
  rw [heq]
  cases hidx : bs.HeadFetcher.HeadValidatorsIndices
      (SlotToEpoch cfg (resolveStartSlot cfg bs req)) with
  | error e =>
    refine ⟨by simp, by simp, ?_, fun h => absurd rfl h⟩
    exact ⟨fun _ => Or.inl ⟨e, rfl⟩, fun _ => rfl⟩
  | ok idx =>
    cases hseed : bs.HeadFetcher.HeadSeed (SlotToEpoch cfg (resolveStartSlot cfg bs req)) with
    | error e =>
      refine ⟨by simp, by simp, ?_, fun h => absurd rfl h⟩
      exact ⟨fun _ => Or.inr (Or.inl ⟨e, rfl⟩), fun _ => rfl⟩
    | ok seed =>
      simp only []
      cases hb : buildCommitteesList cfg sh idx seed (resolveStartSlot cfg bs req) with
      | error c =>
        have hc := buildCommitteesList_error cfg sh idx seed _ c hb
        subst hc
        refine ⟨by simp, by simp, ?_, fun h => absurd rfl h⟩
        refine ⟨fun _ => Or.inr (Or.inr ⟨idx, seed, rfl, rfl, ?_⟩), fun _ => rfl⟩
        exact (buildCommitteesList_error_iff cfg sh idx seed _).mp hb
      | ok cl =>
        refine ⟨by simp, by simp, ?_, fun _ => ⟨idx, seed, cl, rfl, rfl, hb, rfl⟩⟩
        constructor
        · intro h; cases h
        · rintro (⟨e, he⟩ | ⟨e, he⟩ | ⟨i2, s2, h1, h2, hfail⟩)
          · cases he
          · cases he
          · simp only [Except.ok.injEq] at h1 h2
            subst h1 h2
            have := (buildCommitteesList_error_iff cfg sh idx seed _).mpr hfail
            rw [hb] at this; cases this

theorem listBeaconCommittees_live_route_witness :
    2 ≤ smallConfig.SlotsPerEpoch ∧ 0 < smallConfig.TargetCommitteeSize
    ∧ (liveHead 4).HeadSlot < uint64Size
    ∧ SlotToEpoch smallConfig (resolveStartSlot smallConfig
        { HeadFetcher := liveHead 4, BeaconDB := emptyDB } { QueryFilter := .unset })
      = SlotToEpoch smallConfig (liveHead 4).HeadSlot
    ∧ ListBeaconCommittees smallConfig reverseShuffle
        { HeadFetcher := liveHead 4, BeaconDB := emptyDB } { QueryFilter := .unset }
      ≠ .error Code.NotFound :=
  ⟨by decide, by decide, by decide, by decide,
    (listBeaconCommittees_live_route smallConfig reverseShuffle
      { HeadFetcher := liveHead 4, BeaconDB := emptyDB } { QueryFilter := .unset }
      (by decide) (by decide) (by decide) (Or.inr (by decide))).2.1⟩

/-! ## The archival route -/

/-- On the archival route the handler is a function of the head indices, the
archive record and the loop over the slots. -/
theorem listBeaconCommittees_archival_eq (cfg : BeaconChainConfig) (sh : ShuffleEngine)
    (bs : Server) (req : ListCommitteesRequest)
    (hhead : bs.HeadFetcher.HeadSlot < uint64Size)
    (harch : SlotToEpoch cfg (resolveStartSlot cfg bs req) + 1
      < SlotToEpoch cfg bs.HeadFetcher.HeadSlot) :
    ListBeaconCommittees cfg sh bs req =
      match bs.HeadFetcher.HeadValidatorsIndices (SlotToEpoch cfg (resolveStartSlot cfg bs req)) with
      | .error _ => .error Code.Internal
      | .ok activeIndices =>
        match bs.BeaconDB.ArchivedCommitteeInfo (SlotToEpoch cfg (resolveStartSlot cfg bs req)) with
        | .error _ => .error Code.Internal
        | .ok none => .error Code.NotFound
        | .ok (some archivedCommitteeInfo) =>
          match buildCommitteesList cfg sh activeIndices
              (ToBytes32 archivedCommitteeInfo.AttesterSeed) (resolveStartSlot cfg bs req) with
          | .error c => .error c
          | .ok committeesList =>
            .ok { Epoch := SlotToEpoch cfg (resolveStartSlot cfg bs req)
                  Committees := committeesList
                  ActiveValidatorCount := activeIndices.length } := by
  have hfetch := fetch_archival cfg bs _ hhead harch
  simp only [ListBeaconCommittees, hfetch]
  cases bs.HeadFetcher.HeadValidatorsIndices (SlotToEpoch cfg (resolveStartSlot cfg bs req)) with
  | error e => rfl
  | ok idx =>
    cases bs.BeaconDB.ArchivedCommitteeInfo (SlotToEpoch cfg (resolveStartSlot cfg bs req)) with
    | error e => rfl
    | ok info =>
      cases info with
      | none => rfl
      | some info => rfl

/-- C8, as stated, fails: on the archival route two runs that differ only in
the active indices the head fetcher returns for the requested epoch give
different responses. -/
theorem listBeaconCommittees_archival_depends_on_head :
    SlotToEpoch smallConfig (resolveStartSlot smallConfig
        { HeadFetcher := liveHead 12, BeaconDB := fullDB } { QueryFilter := .Epoch 0 }) + 1
      < SlotToEpoch smallConfig (liveHead 12).HeadSlot
    ∧ (liveHead 12).HeadSlot = (smallerHead 12).HeadSlot
    ∧ (liveHead 12).HeadSeed = (smallerHead 12).HeadSeed
    ∧ (∀ epoch, epoch ≠ 0 →
        (liveHead 12).HeadValidatorsIndices epoch = (smallerHead 12).HeadValidatorsIndices epoch)
    ∧ ListBeaconCommittees smallConfig reverseShuffle
        { HeadFetcher := liveHead 12, BeaconDB := fullDB } { QueryFilter := .Epoch 0 }
      ≠ ListBeaconCommittees smallConfig reverseShuffle
        { HeadFetcher := smallerHead 12, BeaconDB := fullDB } { QueryFilter := .Epoch 0 } :=
  ⟨by decide, rfl, rfl, fun epoch h => by simp [liveHead, smallerHead, h], by decide⟩

/-- C8, amended: on the archival route (`epoch(startSlot) + 1 < headEpoch`) the
attester seed is the one of the archive record of the requested epoch and the
head seed is not consulted: two runs that differ only in what `HeadSeed`
returns give the same result.  The active indices are those returned by
`HeadValidatorsIndices` for the requested epoch. -/
theorem listBeaconCommittees_archival_seed (cfg : BeaconChainConfig) (sh : ShuffleEngine)
    (bs : Server) (req : ListCommitteesRequest)
    (hhead : bs.HeadFetcher.HeadSlot < uint64Size)
    (harch : SlotToEpoch cfg (resolveStartSlot cfg bs req) + 1
      < SlotToEpoch cfg bs.HeadFetcher.HeadSlot) :
    (∀ headSeed : Nat → Except String (List Nat),
      ListBeaconCommittees cfg sh
          { HeadFetcher :=
              { HeadSlot := bs.HeadFetcher.HeadSlot
                HeadValidatorsIndices := bs.HeadFetcher.HeadValidatorsIndices
                HeadSeed := headSeed }
            BeaconDB := bs.BeaconDB } req
        = ListBeaconCommittees cfg sh bs req)
    ∧ ∀ resp, ListBeaconCommittees cfg sh bs req = .ok resp →
        ∃ activeIndices archivedCommitteeInfo,
          bs.HeadFetcher.HeadValidatorsIndices
            (SlotToEpoch cfg (resolveStartSlot cfg bs req)) = .ok activeIndices
          ∧ bs.BeaconDB.ArchivedCommitteeInfo
            (SlotToEpoch cfg (resolveStartSlot cfg bs req)) = .ok (some archivedCommitteeInfo)
          ∧ buildCommitteesList cfg sh activeIndices
              (ToBytes32 archivedCommitteeInfo.AttesterSeed) (resolveStartSlot cfg bs req)
            = .ok resp.Committees
          ∧ resp.ActiveValidatorCount = activeIndices.length := by
  have heq := listBeaconCommittees_archival_eq cfg sh bs req hhead harch
  refine ⟨fun headSeed => ?_, fun resp hresp => ?_⟩
  · rw [heq]
    exact listBeaconCommittees_archival_eq cfg sh
      { HeadFetcher :=
          { HeadSlot := bs.HeadFetcher.HeadSlot
            HeadValidatorsIndices := bs.HeadFetcher.HeadValidatorsIndices
            HeadSeed := headSeed }
        BeaconDB := bs.BeaconDB } req hhead harch
  · rw [heq] at hresp
    cases hidx : bs.HeadFetcher.HeadValidatorsIndices
        (SlotToEpoch cfg (resolveStartSlot cfg bs req)) with
    | error e => rw [hidx] at hresp; cases hresp
    | ok idx =>
      rw [hidx] at hresp
      cases hdb : bs.BeaconDB.ArchivedCommitteeInfo
          (SlotToEpoch cfg (resolveStartSlot cfg bs req)) with
      | error e => rw [hdb] at hresp; cases hresp
      | ok info =>
        rw [hdb] at hresp
        cases info with
        | none => cases hresp
        | some info =>
          simp only [] at hresp
          cases hb : buildCommitteesList cfg sh idx (ToBytes32 info.AttesterSeed)
              (resolveStartSlot cfg bs req) with
          | error c => rw [hb] at hresp; cases hresp
          | ok cl =>
            rw [hb] at hresp
            simp only [Except.ok.injEq] at hresp
            subst hresp
            exact ⟨idx, info, rfl, rfl, hb, rfl⟩

theorem listBeaconCommittees_archival_seed_witness :
    (liveHead 12).HeadSlot < uint64Size
    ∧ SlotToEpoch smallConfig (resolveStartSlot smallConfig
        { HeadFetcher := liveHead 12, BeaconDB := fullDB } { QueryFilter := .Epoch 0 }) + 1
      < SlotToEpoch smallConfig (liveHead 12).HeadSlot
    ∧ ListBeaconCommittees smallConfig reverseShuffle
        { HeadFetcher :=
            { HeadSlot := (liveHead 12).HeadSlot
              HeadValidatorsIndices := (liveHead 12).HeadValidatorsIndices
              HeadSeed := fun _ => .error "no seed" }
          BeaconDB := fullDB } { QueryFilter := .Epoch 0 }
      = ListBeaconCommittees smallConfig reverseShuffle
          { HeadFetcher := liveHead 12, BeaconDB := fullDB } { QueryFilter := .Epoch 0 } :=
  ⟨by decide, by decide,
    (listBeaconCommittees_archival_seed smallConfig reverseShuffle
      { HeadFetcher := liveHead 12, BeaconDB := fullDB } { QueryFilter := .Epoch 0 }
      (by decide) (by decide)).1 (fun _ => .error "no seed")⟩

/-! ## Sizes of the committees -/

theorem sum_range_tsub_mono (F : Nat → Nat) (hF : Monotone F) (a n : Nat) :
    ((List.range n).map (fun i => F (a + i + 1) - F (a + i))).sum = F (a + n) - F a := by
  induction n with
  | zero => simp
  | succ n ih =>
    rw [List.range_succ, List.map_append, List.sum_append, ih]
    have h1 : F a ≤ F (a + n) := hF (by omega)
    have h2 : F (a + n) ≤ F (a + n + 1) := hF (by omega)
    simp only [List.map_cons, List.map_nil, List.sum_cons, List.sum_nil, Nat.add_zero]
    rw [show a + (n + 1) = a + n + 1 from rfl]
    omega

theorem range'_mod_perm (s n : Nat) : ((List.range' s n).map (· % n)).Perm (List.range n) := by
  have h := Nat.multiset_Ico_map_mod s n
  have h2 : Multiset.Ico s (s + n) = ((List.range' s n : List Nat) : Multiset Nat) := by
    show ((List.range' s (s + n - s) : List Nat) : Multiset Nat) = _
    simp
  rw [h2] at h
  exact Multiset.coe_eq_coe.mp h

theorem countAtSlot_eq_committeesPerSlot (cfg : BeaconChainConfig) (activeIndices : List Nat) :
    countAtSlot cfg activeIndices = CommitteesPerSlot cfg activeIndices.length := rfl

/-- On a non-empty active set the committee computation returns the slice of
the shuffled indices between the two split offsets. -/
theorem beaconCommittee_ok (cfg : BeaconChainConfig) (sh : ShuffleEngine)
    (activeIndices seed : List Nat) (slot i : Nat) (hne : activeIndices ≠ []) :
    BeaconCommittee cfg sh activeIndices seed slot i = .ok
      (((sh.Shuffle activeIndices seed).drop
          (activeIndices.length * ((slot % cfg.SlotsPerEpoch) * countAtSlot cfg activeIndices + i)
            / (countAtSlot cfg activeIndices * cfg.SlotsPerEpoch))).take
        (activeIndices.length * ((slot % cfg.SlotsPerEpoch) * countAtSlot cfg activeIndices + i + 1)
            / (countAtSlot cfg activeIndices * cfg.SlotsPerEpoch)
          - activeIndices.length * ((slot % cfg.SlotsPerEpoch) * countAtSlot cfg activeIndices + i)
            / (countAtSlot cfg activeIndices * cfg.SlotsPerEpoch))) := by
  have hlen : (sh.Shuffle activeIndices seed).length = activeIndices.length :=
    (sh.perm activeIndices seed).length_eq
  have hemp : activeIndices.isEmpty = false := by
    cases activeIndices with
    | nil => exact absurd rfl hne
    | cons a t => rfl
  simp only [BeaconCommittee, Committee, hemp, hlen, countAtSlot_eq_committeesPerSlot]
  rfl

theorem beaconCommittee_nil (cfg : BeaconChainConfig) (sh : ShuffleEngine)
    (seed : List Nat) (slot i : Nat) :
    BeaconCommittee cfg sh [] seed slot i = .error "InvalidInput" := rfl

theorem splitOffset_mono (n chunks : Nat) : Monotone (fun g => n * g / chunks) :=
  fun _ _ h => Nat.div_le_div_right (Nat.mul_le_mul_left n h)

theorem splitOffset_le (n chunks g : Nat) (hg : g ≤ chunks) : n * g / chunks ≤ n := by
  rcases Nat.eq_zero_or_pos chunks with h | h
  · subst h; simp
  · exact Nat.div_le_of_le_mul (by rw [Nat.mul_comm chunks n]; exact Nat.mul_le_mul_left n hg)

/-- The committees stored for a slot are the slices of the shuffled indices, in
index order. -/
theorem committeeItems_beaconCommittee (cfg : BeaconChainConfig) (sh : ShuffleEngine)
    (activeIndices seed : List Nat) (slot : Nat) (hne : activeIndices ≠ []) :
    committeeItems (BeaconCommittee cfg sh activeIndices seed slot) (countAtSlot cfg activeIndices)
      = .ok ((List.range (countAtSlot cfg activeIndices)).map (fun i =>
          ((sh.Shuffle activeIndices seed).drop
            (activeIndices.length
              * ((slot % cfg.SlotsPerEpoch) * countAtSlot cfg activeIndices + i)
              / (countAtSlot cfg activeIndices * cfg.SlotsPerEpoch))).take
          (activeIndices.length
              * ((slot % cfg.SlotsPerEpoch) * countAtSlot cfg activeIndices + i + 1)
              / (countAtSlot cfg activeIndices * cfg.SlotsPerEpoch)
            - activeIndices.length
              * ((slot % cfg.SlotsPerEpoch) * countAtSlot cfg activeIndices + i)
              / (countAtSlot cfg activeIndices * cfg.SlotsPerEpoch)))) := by
  rw [committeeItems_ok_iff, List.map_map]
  apply List.map_congr_left
  intro i _
  exact beaconCommittee_ok cfg sh activeIndices seed slot i hne

/-- The sizes of the committees of one slot add up to the difference of the
split offsets at the two ends of the slot. -/
theorem slotItems_sizes (cfg : BeaconChainConfig) (sh : ShuffleEngine)
    (activeIndices seed : List Nat) (slot : Nat) (hne : activeIndices ≠ [])
    (hspe : 0 < cfg.SlotsPerEpoch) :
    ((slotItems cfg sh activeIndices seed slot).map List.length).sum
      = activeIndices.length * ((slot % cfg.SlotsPerEpoch + 1) * countAtSlot cfg activeIndices)
          / (countAtSlot cfg activeIndices * cfg.SlotsPerEpoch)
        - activeIndices.length * ((slot % cfg.SlotsPerEpoch) * countAtSlot cfg activeIndices)
          / (countAtSlot cfg activeIndices * cfg.SlotsPerEpoch) := by
  have hlen : (sh.Shuffle activeIndices seed).length = activeIndices.length :=
    (sh.perm activeIndices seed).length_eq
  have hoff : slot % cfg.SlotsPerEpoch < cfg.SlotsPerEpoch := Nat.mod_lt _ hspe
  unfold slotItems
  rw [committeeItems_beaconCommittee cfg sh activeIndices seed slot hne]
  simp only [List.map_map]
  have htele := sum_range_tsub_mono
    (fun g => activeIndices.length * g / (countAtSlot cfg activeIndices * cfg.SlotsPerEpoch))
    (splitOffset_mono _ _) ((slot % cfg.SlotsPerEpoch) * countAtSlot cfg activeIndices)
    (countAtSlot cfg activeIndices)
  simp only [] at htele
  rw [show (slot % cfg.SlotsPerEpoch + 1) * countAtSlot cfg activeIndices
      = slot % cfg.SlotsPerEpoch * countAtSlot cfg activeIndices + countAtSlot cfg activeIndices
      by ring, ← htele]
  congr 1
  apply List.map_congr_left
  intro i hi
  have hi2 : i < countAtSlot cfg activeIndices := List.mem_range.mp hi
  have hg : slot % cfg.SlotsPerEpoch * countAtSlot cfg activeIndices + i + 1
      ≤ countAtSlot cfg activeIndices * cfg.SlotsPerEpoch := by
    have h1 : (slot % cfg.SlotsPerEpoch + 1) * countAtSlot cfg activeIndices
        ≤ cfg.SlotsPerEpoch * countAtSlot cfg activeIndices :=
      Nat.mul_le_mul_right _ hoff
    rw [Nat.mul_comm (countAtSlot cfg activeIndices)]
    calc slot % cfg.SlotsPerEpoch * countAtSlot cfg activeIndices + i + 1
        ≤ (slot % cfg.SlotsPerEpoch + 1) * countAtSlot cfg activeIndices := by
          rw [Nat.add_mul, Nat.one_mul]; omega
      _ ≤ cfg.SlotsPerEpoch * countAtSlot cfg activeIndices := h1
  have hstop := splitOffset_le activeIndices.length
    (countAtSlot cfg activeIndices * cfg.SlotsPerEpoch) _ hg
  simp only [Function.comp_apply, List.length_take, List.length_drop, hlen]
  omega

/-- Over `SlotsPerEpoch` consecutive slots the committee sizes add up to the
number of active indices, wherever the window starts. -/
theorem window_sizes (cfg : BeaconChainConfig) (sh : ShuffleEngine)
    (activeIndices seed : List Nat) (startSlot : Nat) (hne : activeIndices ≠ [])
    (hspe : 0 < cfg.SlotsPerEpoch) :
    ((List.range' startSlot cfg.SlotsPerEpoch).map (fun s =>
        ((slotItems cfg sh activeIndices seed s).map List.length).sum)).sum
      = activeIndices.length := by
  have hcount := countAtSlot_pos cfg activeIndices
  have hfun : (fun s => ((slotItems cfg sh activeIndices seed s).map List.length).sum)
      = (fun o => activeIndices.length * ((o + 1) * countAtSlot cfg activeIndices)
            / (countAtSlot cfg activeIndices * cfg.SlotsPerEpoch)
          - activeIndices.length * (o * countAtSlot cfg activeIndices)
            / (countAtSlot cfg activeIndices * cfg.SlotsPerEpoch)) ∘ (· % cfg.SlotsPerEpoch) := by
    funext s
    exact slotItems_sizes cfg sh activeIndices seed s hne hspe
  rw [hfun, ← List.map_map,
    ((range'_mod_perm startSlot cfg.SlotsPerEpoch).map _).sum_eq]
  have hmono : Monotone (fun o => activeIndices.length * (o * countAtSlot cfg activeIndices)
      / (countAtSlot cfg activeIndices * cfg.SlotsPerEpoch)) :=
    fun _ _ h => Nat.div_le_div_right (Nat.mul_le_mul_left _ (Nat.mul_le_mul_right _ h))
  have htele := sum_range_tsub_mono _ hmono 0 cfg.SlotsPerEpoch
  simp only [Nat.zero_add, Nat.zero_mul, Nat.mul_zero, Nat.zero_div, Nat.sub_zero] at htele
  rw [htele, Nat.mul_comm cfg.SlotsPerEpoch]
  exact Nat.mul_div_cancel _ (Nat.mul_pos hcount hspe)

/-- C4: for the epoch filter `2^62 - 1` with 4 slots per epoch and the head at
slot `2^64 - 1`, the start slot is `2^64 - 4`, the bound of the loop (line 103)
wraps to 0, and the successful response with 16 active indices holds no
committee at all: the committee sizes add up to 0, not to 16. -/
theorem listBeaconCommittees_sizes_zero_on_wrap :
    resolveStartSlot smallConfig { HeadFetcher := liveHead (2 ^ 64 - 1), BeaconDB := emptyDB }
        { QueryFilter := .Epoch (2 ^ 62 - 1) } = 2 ^ 64 - 4
    ∧ ∃ resp, ListBeaconCommittees smallConfig reverseShuffle
        { HeadFetcher := liveHead (2 ^ 64 - 1), BeaconDB := emptyDB }
        { QueryFilter := .Epoch (2 ^ 62 - 1) } = .ok resp
      ∧ resp.ActiveValidatorCount = 16
      ∧ resp.Committees = []
      ∧ (resp.Committees.map (fun p => (p.2.map List.length).sum)).sum
          ≠ resp.ActiveValidatorCount :=
  ⟨by decide, _, rfl, by decide, by decide, by decide⟩

/-- When `SlotsPerEpoch` is positive and `startSlot + SlotsPerEpoch` stays
below `2^64`, in every successful response with `N > 0` active indices each
committee is the slice `shuffled[start:end]` of the section 4.4 formulas and
the committee sizes over all slots and committee indices of the response add
up to `N`, also when `startSlot` is not the first slot of its epoch. -/
theorem listBeaconCommittees_partition (cfg : BeaconChainConfig) (sh : ShuffleEngine)
    (bs : Server) (req : ListCommitteesRequest) (resp : BeaconCommittees)
    (hspe : 0 < cfg.SlotsPerEpoch)
    (hno : resolveStartSlot cfg bs req + cfg.SlotsPerEpoch < uint64Size)
    (h : ListBeaconCommittees cfg sh bs req = .ok resp)
    (hN : 0 < resp.ActiveValidatorCount) :
    (resp.Committees.map (fun p => (p.2.map List.length).sum)).sum = resp.ActiveValidatorCount
    ∧ ∃ activeIndices seed : List Nat,
        resp.ActiveValidatorCount = activeIndices.length
        ∧ ∀ p ∈ resp.Committees, p.2 =
          (List.range (countAtSlot cfg activeIndices)).map (fun i =>
            ((sh.Shuffle activeIndices seed).drop
              (activeIndices.length
                * ((p.1 % cfg.SlotsPerEpoch) * countAtSlot cfg activeIndices + i)
                / (countAtSlot cfg activeIndices * cfg.SlotsPerEpoch))).take
            (activeIndices.length
                * ((p.1 % cfg.SlotsPerEpoch) * countAtSlot cfg activeIndices + i + 1)
                / (countAtSlot cfg activeIndices * cfg.SlotsPerEpoch)
              - activeIndices.length
                * ((p.1 % cfg.SlotsPerEpoch) * countAtSlot cfg activeIndices + i)
                / (countAtSlot cfg activeIndices * cfg.SlotsPerEpoch))) := by
  obtain ⟨idx, seed, -, hb, -, hcount⟩ := (listBeaconCommittees_ok_iff cfg sh bs req resp).mp h
  obtain ⟨-, hr⟩ := (buildCommitteesList_ok_iff cfg sh idx seed _ _ hno).mp hb
  have hne : idx ≠ [] := by
    intro hnil
    rw [hcount, hnil] at hN
    exact absurd hN (by simp)
  refine ⟨?_, idx, seed, hcount, ?_⟩
  · rw [hr, List.map_map, List.map_reverse, List.sum_reverse, hcount]
    exact window_sizes cfg sh idx seed _ hne hspe
  · intro p hp
    rw [hr, List.mem_map] at hp
    obtain ⟨s, -, rfl⟩ := hp
    have := committeeItems_beaconCommittee cfg sh idx seed s hne
    simp only [slotItems, this]

theorem listBeaconCommittees_partition_witness :
    0 < smallConfig.SlotsPerEpoch
    ∧ resolveStartSlot smallConfig { HeadFetcher := liveHead 5, BeaconDB := emptyDB }
        { QueryFilter := .unset } + smallConfig.SlotsPerEpoch < uint64Size
    ∧ ListBeaconCommittees smallConfig reverseShuffle
        { HeadFetcher := liveHead 5, BeaconDB := emptyDB } { QueryFilter := .unset }
      = .ok responseAtSlot5
    ∧ (responseAtSlot5.Committees.map (fun p => (p.2.map List.length).sum)).sum
      = responseAtSlot5.ActiveValidatorCount :=
  ⟨by decide, by decide, by decide,
    (listBeaconCommittees_partition smallConfig reverseShuffle
      { HeadFetcher := liveHead 5, BeaconDB := emptyDB } { QueryFilter := .unset }
      responseAtSlot5 (by decide) (by decide) (by decide) (by decide)).1⟩


/-! ## The unfiltered request and the wrapped epoch filter -/

/-- The keys of the map the loop returns when its bound does not wrap. -/
theorem buildCommitteesList_keys (cfg : BeaconChainConfig) (sh : ShuffleEngine)
    (activeIndices attesterSeed : List Nat) (startSlot : Nat) (r : CommitteesMap)
    (hno : startSlot + cfg.SlotsPerEpoch < uint64Size)
    (h : buildCommitteesList cfg sh activeIndices attesterSeed startSlot = .ok r) :
    r.map Prod.fst = (List.range' startSlot cfg.SlotsPerEpoch).reverse := by
  obtain ⟨-, hr⟩ := (buildCommitteesList_ok_iff cfg sh activeIndices attesterSeed _ _ hno).mp h
  rw [hr, List.map_map]
  exact List.map_id _

theorem slotToEpoch_window_end (cfg : BeaconChainConfig) (slot : Nat)
    (hspe : 0 < cfg.SlotsPerEpoch) (hoff : slot % cfg.SlotsPerEpoch ≠ 0) :
    SlotToEpoch cfg (slot + cfg.SlotsPerEpoch - 1) = SlotToEpoch cfg slot + 1 := by
  unfold SlotToEpoch
  have hlt : slot % cfg.SlotsPerEpoch < cfg.SlotsPerEpoch := Nat.mod_lt _ hspe
  have hsplit := Nat.div_add_mod slot cfg.SlotsPerEpoch
  have hrw : slot + cfg.SlotsPerEpoch - 1
      = (slot % cfg.SlotsPerEpoch - 1) + cfg.SlotsPerEpoch * (slot / cfg.SlotsPerEpoch + 1) := by
    rw [Nat.mul_add, Nat.mul_one]
    omega
  rw [hrw, Nat.add_mul_div_left _ _ hspe, Nat.div_eq_of_lt (by omega)]
  omega

/-- Whenever the head slot is not the first slot of its epoch, the unfiltered
request reports the head epoch and returns an entry for a slot of the next
epoch. -/
theorem unfiltered_request_reaches_next_epoch (cfg : BeaconChainConfig) (sh : ShuffleEngine)
    (bs : Server) (resp : BeaconCommittees) (hspe : 0 < cfg.SlotsPerEpoch)
    (hno : bs.HeadFetcher.HeadSlot + cfg.SlotsPerEpoch < uint64Size)
    (hoff : bs.HeadFetcher.HeadSlot % cfg.SlotsPerEpoch ≠ 0)
    (h : ListBeaconCommittees cfg sh bs { QueryFilter := .unset } = .ok resp) :
    resp.Epoch = SlotToEpoch cfg bs.HeadFetcher.HeadSlot
    ∧ (bs.HeadFetcher.HeadSlot + cfg.SlotsPerEpoch - 1) ∈ resp.Committees.map Prod.fst
    ∧ SlotToEpoch cfg (bs.HeadFetcher.HeadSlot + cfg.SlotsPerEpoch - 1)
      = SlotToEpoch cfg bs.HeadFetcher.HeadSlot + 1 := by
  obtain ⟨idx, seed, -, hb, hep, -⟩ :=
    (listBeaconCommittees_ok_iff cfg sh bs { QueryFilter := .unset } resp).mp h
  have hstart : resolveStartSlot cfg bs { QueryFilter := .unset } = bs.HeadFetcher.HeadSlot := rfl
  rw [hstart] at hb hep
  refine ⟨hep, ?_, slotToEpoch_window_end cfg _ hspe hoff⟩
  rw [buildCommitteesList_keys cfg sh idx seed _ _ hno hb, List.mem_reverse, List.mem_range'_1]
  omega

/-- With an epoch filter whose start slot fits in 64 bits, an epoch after the
head epoch is answered with `InvalidArgument`. -/
theorem epoch_filter_future_without_wrap (cfg : BeaconChainConfig) (sh : ShuffleEngine)
    (bs : Server) (epoch : Nat) (hspe : 2 ≤ cfg.SlotsPerEpoch)
    (hfit : epoch * cfg.SlotsPerEpoch < uint64Size)
    (hfut : SlotToEpoch cfg bs.HeadFetcher.HeadSlot < epoch) :
    ListBeaconCommittees cfg sh bs { QueryFilter := .Epoch epoch }
      = .error Code.InvalidArgument := by
  have hstart : resolveStartSlot cfg bs { QueryFilter := .Epoch epoch }
      = epoch * cfg.SlotsPerEpoch := by
    simp only [resolveStartSlot, StartSlot]
    exact Nat.mod_eq_of_lt hfit
  have hep : SlotToEpoch cfg (epoch * cfg.SlotsPerEpoch) = epoch := by
    unfold SlotToEpoch
    exact Nat.mul_div_cancel _ (by omega)
  have hfetch := fetch_future cfg bs (epoch * cfg.SlotsPerEpoch)
    (slotToEpoch_succ_lt cfg _ hspe hfit) (by rw [hep]; exact hfut)
  simp only [ListBeaconCommittees, hstart, hfetch]

/-- C5: at head slot 5 with 4 slots per epoch, the unfiltered request reports
epoch 1 but its map is keyed by the slots 5 to 8: slot 8 lies in epoch 2 and
slot 4, the first slot of epoch 1, is missing. -/
theorem listBeaconCommittees_unfiltered_window :
    ListBeaconCommittees smallConfig reverseShuffle
        { HeadFetcher := liveHead 5, BeaconDB := emptyDB } { QueryFilter := .unset }
      = .ok responseAtSlot5
    ∧ responseAtSlot5.Epoch = SlotToEpoch smallConfig (liveHead 5).HeadSlot
    ∧ 8 ∈ responseAtSlot5.Committees.map Prod.fst
    ∧ SlotToEpoch smallConfig 8 ≠ SlotToEpoch smallConfig (liveHead 5).HeadSlot
    ∧ 4 ∉ responseAtSlot5.Committees.map Prod.fst
    ∧ SlotToEpoch smallConfig 4 = SlotToEpoch smallConfig (liveHead 5).HeadSlot := by
  decide

/-- C6: with 4 slots per epoch and the head in epoch 1, the epoch filter
`2^62` is after the head epoch, yet `StartSlot` wraps to slot 0 and the handler
serves the committees of epoch 0 instead of answering `InvalidArgument`. -/
theorem listBeaconCommittees_wrapped_epoch_filter :
    SlotToEpoch smallConfig (liveHead 4).HeadSlot < 2 ^ 62
    ∧ 2 ^ 62 < uint64Size
    ∧ resolveStartSlot smallConfig { HeadFetcher := liveHead 4, BeaconDB := emptyDB }
        { QueryFilter := .Epoch (2 ^ 62) } = 0
    ∧ ∃ resp, ListBeaconCommittees smallConfig reverseShuffle
        { HeadFetcher := liveHead 4, BeaconDB := emptyDB } { QueryFilter := .Epoch (2 ^ 62) }
        = .ok resp
      ∧ resp.Epoch = 0 ∧ resp.Committees.length = 4 :=
  ⟨by decide, by decide, by decide, _, rfl, by decide, by decide⟩

/-! ## Crosslink selection -/

theorem selectCrosslink_idem (st : BeaconState) (shard : Nat) (previous crosslink : Crosslink)
    (h : selectCrosslink st shard previous = .ok crosslink) :
    selectCrosslink st shard crosslink = .ok crosslink := by
  unfold selectCrosslink at h ⊢
  cases hw : winningCandidate st shard with
  | error e => rw [hw] at h; cases h
  | ok w =>
    rw [hw] at h
    cases w with
    | none => rfl
    | some w =>
      simp only [] at h ⊢
      cases hB : committeeBalance st shard with
      | error e => rw [hB] at h; cases h
      | ok total =>
        rw [hB] at h
        simp only [] at h ⊢
        by_cases hsuper : 2 * total ≤ 3 * w.AttestingBalance
        · rw [if_pos hsuper] at h ⊢; exact h
        · rw [if_neg hsuper]

theorem selectCrosslinks_getElem (st : BeaconState) (shard : Nat)
    (previous crosslinks : List Crosslink)
    (h : selectCrosslinks st shard previous = .ok crosslinks) (i : Nat) (prev : Crosslink)
    (hi : previous[i]? = some prev) :
    ∃ c, crosslinks[i]? = some c ∧ selectCrosslink st (shard + i) prev = .ok c := by
  induction previous generalizing shard crosslinks i with
  | nil => simp at hi
  | cons p rest ih =>
    simp only [selectCrosslinks] at h
    cases h1 : selectCrosslink st shard p with
    | error e => rw [h1] at h; cases h
    | ok c =>
      rw [h1] at h
      simp only [] at h
      cases h2 : selectCrosslinks st (shard + 1) rest with
      | error e => rw [h2] at h; cases h
      | ok cs =>
        rw [h2] at h
        simp only [Except.ok.injEq] at h
        subst h
        cases i with
        | zero =>
          simp only [List.getElem?_cons_zero, Option.some.injEq] at hi
          subst hi
          exact ⟨c, by simp, by simpa using h1⟩
        | succ j =>
          simp only [List.getElem?_cons_succ] at hi
          obtain ⟨c2, hc2, hsel⟩ := ih (shard + 1) cs h2 j hi
          refine ⟨c2, by simpa using hc2, ?_⟩
          rw [show shard + (j + 1) = shard + 1 + j by omega]
          exact hsel

theorem selectCrosslinks_idem (st : BeaconState) (shard : Nat)
    (previous crosslinks : List Crosslink)
    (h : selectCrosslinks st shard previous = .ok crosslinks) :
    selectCrosslinks st shard crosslinks = .ok crosslinks := by
  induction previous generalizing shard crosslinks with
  | nil =>
    simp only [selectCrosslinks, Except.ok.injEq] at h
    subst h; rfl
  | cons p rest ih =>
    simp only [selectCrosslinks] at h
    cases h1 : selectCrosslink st shard p with
    | error e => rw [h1] at h; cases h
    | ok c =>
      rw [h1] at h
      simp only [] at h
      cases h2 : selectCrosslinks st (shard + 1) rest with
      | error e => rw [h2] at h; cases h
      | ok cs =>
        rw [h2] at h
        simp only [Except.ok.injEq] at h
        subst h
        simp only [selectCrosslinks, selectCrosslink_idem st shard p c h1, ih (shard + 1) cs h2]

/-- Crosslink selection reads the balances, the committees and the
attestations of the state only. -/
theorem selectCrosslinks_congr (st st2 : BeaconState) (shard : Nat) (previous : List Crosslink)
    (hb : st2.EffectiveBalances = st.EffectiveBalances) (hc : st2.Committees = st.Committees)
    (ha : st2.Attestations = st.Attestations) :
    selectCrosslinks st2 shard previous = selectCrosslinks st shard previous := by
  have hsel : ∀ s p, selectCrosslink st2 s p = selectCrosslink st s p := by
    intro s p
    have hroots : dataRoots st2 s = dataRoots st s := by unfold dataRoots; rw [ha]
    have hcomm : shardCommittee st2 s = shardCommittee st s := by unfold shardCommittee; rw [hc]
    have hbal : ∀ l, totalBalance st2 l = totalBalance st l := by
      intro l; unfold totalBalance effectiveBalance; rw [hb]
    have hmem : ∀ r c, attestingMembers st2 s r c = attestingMembers st s r c := by
      intro r c; unfold attestingMembers; rw [ha]
    have htally : ∀ c roots, tallyAttestations st2 s c roots = tallyAttestations st s c roots := by
      intro c roots
      induction roots with
      | nil => rfl
      | cons r rest ih => simp only [tallyAttestations, hbal, hmem, ih]
    have hwin : winningCandidate st2 s = winningCandidate st s := by
      unfold winningCandidate; rw [hcomm, hroots]; simp only [htally]
    have hcb : committeeBalance st2 s = committeeBalance st s := by
      unfold committeeBalance; rw [hcomm]; simp only [hbal]
    unfold selectCrosslink
    rw [hwin, hcb]
  induction previous generalizing shard with
  | nil => rfl
  | cons p rest ih => simp only [selectCrosslinks, hsel, ih]

/-- C9: for a state that `ProcessCrosslinks` accepts and a shard whose
committee has total effective balance `B` and whose winning candidate has
attesting balance `a`: if `a < 2B/3` the previous crosslink of the shard is the
one of the post-state, and of the state a second run on the post-state (same
attestations) returns; if `a >= 2B/3` the crosslink of the post-state is the
winning candidate. -/
theorem processCrosslinks_supermajority (pre post : BeaconState) (shard total : Nat)
    (winner : CrosslinkCandidate) (previous : Crosslink)
    (hpost : ProcessCrosslinks pre = .ok post)
    (hprev : pre.Crosslinks[shard]? = some previous)
    (htotal : committeeBalance pre shard = .ok total)
    (hwinner : winningCandidate pre shard = .ok (some winner)) :
    ((winner.AttestingBalance : ℚ) < 2 * (total : ℚ) / 3 →
        post.Crosslinks[shard]? = some previous
        ∧ ∃ post2, ProcessCrosslinks post = .ok post2
            ∧ post2.Crosslinks[shard]? = some previous)
    ∧ (2 * (total : ℚ) / 3 ≤ (winner.AttestingBalance : ℚ) →
        post.Crosslinks[shard]? = some { Shard := shard, DataRoot := winner.DataRoot }) := by
  unfold ProcessCrosslinks at hpost
  cases hsel : selectCrosslinks pre 0 pre.Crosslinks with
  | error e => rw [hsel] at hpost; cases hpost
  | ok crosslinks =>
    rw [hsel] at hpost
    simp only [Except.ok.injEq] at hpost
    subst hpost
    obtain ⟨c, hc, hshard⟩ := selectCrosslinks_getElem pre 0 _ _ hsel shard previous hprev
    rw [Nat.zero_add] at hshard
    simp only [selectCrosslink, hwinner, htotal] at hshard
    have hrerun : ProcessCrosslinks
        { EffectiveBalances := pre.EffectiveBalances
          Committees := pre.Committees
          Attestations := pre.Attestations
          Crosslinks := crosslinks
          InclusionDistances := inclusionDistances pre }
        = .ok { EffectiveBalances := pre.EffectiveBalances
                Committees := pre.Committees
                Attestations := pre.Attestations
                Crosslinks := crosslinks
                InclusionDistances := inclusionDistances pre } := by
      have hcongr := selectCrosslinks_congr pre
        { EffectiveBalances := pre.EffectiveBalances
          Committees := pre.Committees
          Attestations := pre.Attestations
          Crosslinks := crosslinks
          InclusionDistances := inclusionDistances pre } 0 crosslinks rfl rfl rfl
      simp only [ProcessCrosslinks]
      rw [hcongr, selectCrosslinks_idem pre 0 _ _ hsel]
      rfl
    constructor
    · intro hlt
      have hnot : ¬ 2 * total ≤ 3 * winner.AttestingBalance := by
        intro hle
        have : (2 * total : ℚ) ≤ 3 * winner.AttestingBalance := by exact_mod_cast hle
        linarith
      rw [if_neg hnot] at hshard
      simp only [Except.ok.injEq] at hshard
      subst hshard
      exact ⟨hc, _, hrerun, hc⟩
    · intro hge
      have hle : 2 * total ≤ 3 * winner.AttestingBalance := by
        have : (2 * total : ℚ) ≤ 3 * winner.AttestingBalance := by linarith
        exact_mod_cast this
      rw [if_pos hle] at hshard
      simp only [Except.ok.injEq] at hshard
      subst hshard
      exact hc

theorem processCrosslinks_supermajority_witness :
    ProcessCrosslinks twoShardState = .ok twoShardPost
    ∧ committeeBalance twoShardState 0 = .ok 128
    ∧ winningCandidate twoShardState 0
        = .ok (some { Shard := 0, DataRoot := [7], AttestingBalance := 64 })
    ∧ twoShardPost.Crosslinks[0]? = some { Shard := 0, DataRoot := [1] }
    ∧ ∃ post2, ProcessCrosslinks twoShardPost = .ok post2
        ∧ post2.Crosslinks[0]? = some { Shard := 0, DataRoot := [1] } :=
  ⟨by decide, by decide, by decide,
    (processCrosslinks_supermajority twoShardState twoShardPost 0 128
      { Shard := 0, DataRoot := [7], AttestingBalance := 64 } { Shard := 0, DataRoot := [1] }
      (by decide) (by decide) (by decide) (by decide)).1 (by norm_num)⟩

end Prysm
